import Mathlib

/-! # NFSOperator: the Pod mutating admission webhook

A shallow embedding of `podAnnotator.Handle` (`api/v1/mutating_webhook.go`)
together with the library functions it calls, followed by the properties of
the handler.

Conventions of the embedding.

* A Go `string` is a Lean `String`.  Every string operation used by the
  handler (`strings.HasPrefix`, `strings.Split` on `":"`, `strconv.ParseInt`)
  only ever tests for ASCII bytes, so on UTF-8 text working code point by
  code point and working byte by byte take the same branches.
* `int64` values are `Int`, `uint64` values are `Nat`; wrap-around is written
  out with `%` where the Go code can reach it.
* A Go `error` is a `GoError`: its text and what `errors.IsNotFound` answers
  on it.
* The collaborators that the handler receives or links against (the
  admission decoder, the API client, `json.Marshal`, the JSON diff) are
  fields of `podAnnotator` and `Libs`; the theorems quantify over them.
-/

namespace NFSOperator

/-! ## Go strings -/

namespace strings

/-- Go `strings.HasPrefix(s, prefix)`: `s` begins with `pre`. -/
def HasPrefix (s pre : String) : Bool :=
  pre.data.isPrefixOf s.data

/-- The scanning loop of `strings.Split` for a one-byte separator: the pieces
of `cs` between consecutive occurrences of `sep`.  There is always one more
piece than there are separators. -/
def splitChars (sep : Char) : List Char → List (List Char)
  | [] => [[]]
  | c :: cs =>
    if c = sep then [] :: splitChars sep cs
    else
      match splitChars sep cs with
      | [] => [[c]]
      | p :: ps => (c :: p) :: ps

/-- Go `strings.Split(s, sep)` for a separator of one byte. -/
def Split (s : String) (sep : Char) : List String :=
  (splitChars sep s.data).map String.mk

end strings

/-! ## `strconv.ParseInt(s, 10, 64)` -/

namespace strconv

/-- The `Err` field of a `*strconv.NumError`. -/
inductive NumErr where
  | ErrSyntax
  | ErrRange
deriving DecidableEq, Repr

/-- Go `maxUint64 = 1<<64 - 1`. -/
def maxUint64 : Nat := 2 ^ 64 - 1

/-- Go `lower(c) = c | ('x' - 'X')` on a byte. -/
def lower (c : Nat) : Nat := c ||| 0x20

/-- The value `maxVal := uint64(1)<<uint(bitSize) - 1` of `ParseUint` at
`bitSize = 64`, computed in `uint64` arithmetic: the shift wraps to `0` and
the subtraction wraps to `2^64 - 1`. -/
def maxVal : Nat := ((1 <<< 64) % 2 ^ 64 + 2 ^ 64 - 1) % 2 ^ 64

/-- The `cutoff` of `ParseUint` at base 10: `maxUint64/10 + 1`, the smallest
number whose tenfold exceeds `maxUint64`. -/
def cutoff : Nat := maxUint64 / 10 + 1

/-- The digit loop of `ParseUint` at base 10 and `bitSize = 64`
(`for _, c := range []byte(s)`), with `n` the value accumulated so far.
It returns at the first offending byte: a byte that is not a digit of the
base gives `(0, ErrSyntax)`, an overflow gives `(maxVal, ErrRange)` without
looking at the bytes that follow. -/
def parseUintLoop : List Char → Nat → Nat × Option NumErr
  | [], n => (n, none)
  | c :: cs, n =>
    let b := c.toNat
    -- case '0' <= c && c <= '9': d = c - '0'
    -- case 'a' <= lower(c) && lower(c) <= 'z': d = lower(c) - 'a' + 10
    -- default: syntax error
    let d? : Option Nat :=
      if 0x30 ≤ b ∧ b ≤ 0x39 then some (b - 0x30)
      else if 0x61 ≤ lower b ∧ lower b ≤ 0x7a then some (lower b - 0x61 + 10)
      else none
    match d? with
    | none => (0, some NumErr.ErrSyntax)
    | some d =>
      if d ≥ 10 then (0, some NumErr.ErrSyntax)
      else if n ≥ cutoff then (maxVal, some NumErr.ErrRange)
      else
        let n10 := (n * 10) % 2 ^ 64
        let n1 := (n10 + d) % 2 ^ 64
        if n1 < n10 ∨ n1 > maxVal then (maxVal, some NumErr.ErrRange)
        else parseUintLoop cs n1

/-- Go `strconv.ParseUint(s, 10, 64)` on the bytes of `s`: the value and the
error kind (`none` for a nil error). -/
def ParseUint (s : List Char) : Nat × Option NumErr :=
  if s = [] then (0, some NumErr.ErrSyntax)
  else parseUintLoop s 0

/-- Conversion of an integer to `int64` with wrap-around. -/
def int64 (x : Int) : Int := (x + 2 ^ 63) % 2 ^ 64 - 2 ^ 63

/-- Go `strconv.ParseInt(s, 10, 64)`: the returned value and the error kind
(`none` for a nil error).  A syntax error returns `0`; a range error returns
the integer of largest magnitude of the sign of `s`. -/
def ParseInt (s : String) : Int × Option NumErr :=
  match s.data with
  | [] => (0, some NumErr.ErrSyntax)
  | c :: r =>
    -- Pick off leading sign.
    let signed : Bool × List Char :=
      if c = '+' then (false, r)
      else if c = '-' then (true, r)
      else (false, c :: r)
    let neg := signed.1
    -- Convert unsigned and check range.
    let (un, err) := ParseUint signed.2
    if err ≠ none ∧ err ≠ some NumErr.ErrRange then (0, err)
    else
      let cutoff : Nat := 2 ^ 63
      if !neg ∧ un ≥ cutoff then ((cutoff : Int) - 1, some NumErr.ErrRange)
      else if neg ∧ un > cutoff then (-(cutoff : Int), some NumErr.ErrRange)
      else
        let n := int64 un
        (if neg then int64 (-n) else n, none)

/-- The ASCII digit of `d < 10`. -/
def digitChar (d : Nat) : Char := Char.ofNat (0x30 + d)

/-- One step of reading a decimal numeral: append the digit `d` to `n`. -/
def pushDigit (n d : Nat) : Nat := n * 10 + d

/-- The value of a run of decimal digits, most significant first. -/
def digitsValue (ds : List Nat) : Nat := ds.foldl pushDigit 0

/-- The string `s` is a decimal numeral of the integer `V`: an optional sign,
then one or more ASCII digits, whose value with that sign is `V`. -/
def IsDecimalOf (s : String) (V : Int) : Prop :=
  ∃ ds : List Nat, ds ≠ [] ∧ (∀ d ∈ ds, d < 10) ∧
    ((s.data = ds.map digitChar ∧ V = (digitsValue ds : Int)) ∨
     (s.data = '+' :: ds.map digitChar ∧ V = (digitsValue ds : Int)) ∨
     (s.data = '-' :: ds.map digitChar ∧ V = -(digitsValue ds : Int)))

/-- The value that `ParseInt` returns next to an error of kind `e` on `s`:
`0` for a syntax error, the bound of `int64` on the side of the sign of `s`
for a range error. -/
def errorValue (s : String) : NumErr → Int
  | NumErr.ErrSyntax => 0
  | NumErr.ErrRange => if s.data.head? = some '-' then -(2 ^ 63) else 2 ^ 63 - 1

/-- The decimal numeral that Go `strconv.FormatInt(V, 10)` writes: the digits
of the magnitude, most significant first and without leading zeros (`0` for
zero), after a `-` when `V` is negative. -/
def FormatInt (V : Int) : String :=
  let digits : List Nat := if V.natAbs = 0 then [0] else (Nat.digits 10 V.natAbs).reverse
  String.mk ((if V < 0 then ['-'] else []) ++ digits.map digitChar)

end strconv

/-! ## Kubernetes objects -/

/-- Fields of an API object that the handler neither reads nor writes, kept
as a bag of (JSON name, encoded value) pairs. -/
abbrev Fields := List (String × String)

/-- Go `corev1.PodSecurityContext`.  Pointer fields are `Option`s and slices
are lists; the default of every field is its Go zero value, so that naming
only `RunAsUser` in an instance gives the composite literal
`corev1.PodSecurityContext{RunAsUser: ...}`.  The nested option structs are
kept as bags of their own fields. -/
structure PodSecurityContext where
  SELinuxOptions : Option Fields := none
  WindowsOptions : Option Fields := none
  RunAsUser : Option Int := none
  RunAsGroup : Option Int := none
  RunAsNonRoot : Option Bool := none
  SupplementalGroups : List Int := []
  FSGroup : Option Int := none
  Sysctls : Fields := []
  FSGroupChangePolicy : Option String := none
  SeccompProfile : Option Fields := none
deriving DecidableEq, Repr

/-- Go `metav1.ObjectMeta`: the namespace, and the rest of the metadata. -/
structure ObjectMeta where
  Name : String := ""
  Namespace : String := ""
  Labels : Fields := []
  Annotations : Fields := []
  other : Fields := []
deriving DecidableEq, Repr

/-- Go `corev1.PodSpec`: the pod-level security context, and the rest of the
specification. -/
structure PodSpec where
  SecurityContext : Option PodSecurityContext := none
  Containers : Fields := []
  ServiceAccountName : String := ""
  other : Fields := []
deriving DecidableEq, Repr

/-- Go `corev1.Pod`. -/
structure Pod where
  TypeMeta : Fields := []
  ObjectMeta : ObjectMeta := {}
  Spec : PodSpec := {}
  Status : Fields := []
deriving DecidableEq, Repr

/-- Go `pod.Namespace`, promoted from the embedded `ObjectMeta`. -/
def Pod.Namespace (pod : Pod) : String := pod.ObjectMeta.Namespace

/-- Go `corev1.ConfigMap`, reduced to its `Data map[string]string`; the map
is the lookup `uid, found := Data[key]`. -/
structure ConfigMap where
  Data : String → Option String

/-- Go `types.NamespacedName`. -/
structure NamespacedName where
  Namespace : String
  Name : String
deriving DecidableEq, Repr

/-- A Go `error` value: its `Error()` text and the answer of
`errors.IsNotFound` on it. -/
structure GoError where
  Error : String
  IsNotFound : Bool := false
deriving DecidableEq, Repr

/-- A byte slice. -/
abbrev Bytes := List (Fin 256)

/-! ## The admission framework -/

/-- Go `authenticationv1.UserInfo`. -/
structure UserInfo where
  Username : String := ""
  UID : String := ""
  Groups : List String := []
deriving DecidableEq, Repr

/-- Go `runtime.RawExtension`. -/
structure RawExtension where
  Raw : Bytes := []
deriving DecidableEq, Repr

/-- Go `admission.Request`: the caller and the raw object under admission. -/
structure Request where
  UID : String := ""
  UserInfo : UserInfo := {}
  Object : RawExtension := {}
  OldObject : RawExtension := {}
deriving DecidableEq, Repr

/-- Go `metav1.Status`, as the response constructors fill it: the HTTP code
and the text handed to the constructor. -/
structure Status where
  Code : Int
  Message : String
deriving DecidableEq, Repr

/-- Go `jsonpatch.JsonPatchOperation`. -/
structure JsonPatchOperation where
  Operation : String
  Path : String
  Value : String
deriving DecidableEq, Repr

/-- Go `admissionv1.PatchType`. -/
inductive PatchType where
  | JSONPatch
deriving DecidableEq, Repr

/-- Go `admission.Response`. -/
structure Response where
  Patches : List JsonPatchOperation := []
  Allowed : Bool
  Result : Option Status := none
  PatchType : Option PatchType := none
deriving DecidableEq, Repr

/-- Go `http.StatusOK`. -/
def StatusOK : Int := 200
/-- Go `http.StatusBadRequest`. -/
def StatusBadRequest : Int := 400
/-- Go `http.StatusForbidden`. -/
def StatusForbidden : Int := 403
/-- Go `http.StatusInternalServerError`. -/
def StatusInternalServerError : Int := 500

/-- Libraries linked into the handler: `json.Marshal` on a Pod (bytes and
error) and `jsonpatch.CreatePatch` (the operations turning the first document
into the second, or an error). -/
structure Libs where
  Marshal : Pod → Bytes × Option GoError
  CreatePatch : Bytes → Bytes → Except GoError (List JsonPatchOperation)

namespace admission

/-- Go `admission.ValidationResponse(allowed, message)`. -/
def ValidationResponse (allowed : Bool) (message : String) : Response :=
  { Allowed := allowed
    Result := some { Code := if allowed then StatusOK else StatusForbidden, Message := message } }

/-- Go `admission.Allowed(message)`. -/
def Allowed (message : String) : Response := ValidationResponse true message

/-- Go `admission.Denied(message)`. -/
def Denied (message : String) : Response := ValidationResponse false message

/-- Go `admission.Errored(code, err)`. -/
def Errored (code : Int) (err : GoError) : Response :=
  { Allowed := false, Result := some { Code := code, Message := err.Error } }

/-- Go `admission.PatchResponseFromRaw(original, current)`: an allowed
response carrying the operations of the diff (and the JSON-patch type when
there is at least one), or `Errored(500)` when the diff fails. -/
def PatchResponseFromRaw (lib : Libs) (original current : Bytes) : Response :=
  match lib.CreatePatch original current with
  | .error err => Errored StatusInternalServerError err
  | .ok patches =>
    { Patches := patches
      Allowed := true
      PatchType := if patches.length = 0 then none else some PatchType.JSONPatch }

end admission

/-- Go `client.Client`, reduced to `Get` of a ConfigMap by key. -/
structure Client where
  Get : NamespacedName → Except GoError ConfigMap

/-- Go `*admission.Decoder`, reduced to `Decode(req, pod)`. -/
structure Decoder where
  Decode : Request → Except GoError Pod

/-- Go `podAnnotator`. -/
structure podAnnotator where
  Client : Client
  decoder : Decoder

/-! ## The handler -/

/-- What one run of `Handle` does: the response it returns, the keys it
read through the client (in order), and the Pod it handed to `json.Marshal`
(`none` when it returned before that line).  `writes` lists the keys written
through the client (`Create`, `Update`, `Patch`, `Delete`); the handler calls
none of these, so no line of it adds to that list. -/
structure Outcome where
  response : Response
  reads : List NamespacedName := []
  marshaled : Option Pod := none
  writes : List NamespacedName := []
deriving DecidableEq, Repr

/-- The key under which the handler fetches the mapping:
`types.NamespacedName{Name: "uid-configmap", Namespace: "home"}`. -/
def configMapKey : NamespacedName := { Name := "uid-configmap", Namespace := "home" }

/-- Go `(*podAnnotator).Handle`.  The result is `none` when the run panics
(the only place that can is the index expression `saParts[3]`). -/
def Handle (a : podAnnotator) (lib : Libs) (req : Request) : Option Outcome :=
  match a.decoder.Decode req with
  | .error err => some { response := admission.Errored StatusBadRequest err }
  | .ok pod =>
    -- check if we are in the correct namespace, otherwise let the request succeed
    if pod.Namespace ≠ "home" then
      some { response := admission.Allowed "Not the target namespace" }
    else
      -- get service account from request
      let username := req.UserInfo.Username
      if !strings.HasPrefix username "system:serviceaccount:" then
        some { response := admission.Denied "Request is not from a ServiceAccount" }
      else
        let saParts := strings.Split username ':'
        if saParts.length ≠ 4 then
          some { response := admission.Denied "Invalid ServiceAccount format in request" }
        else
          match saParts[3]? with
          | none => none
          | some serviceAccount =>
            -- get serviceaccount-uid configmap
            let key : NamespacedName := configMapKey
            match a.Client.Get key with
            | .error err =>
              if err.IsNotFound then
                some { response := admission.Denied "ConfigMap not found", reads := [key] }
              else
                some { response := admission.Errored StatusInternalServerError err
                       reads := [key] }
            | .ok configMap =>
              -- extract uid from serviceaccount
              let pod : Pod :=
                match configMap.Data serviceAccount with
                | some uid =>
                  -- Set runAsUser
                  { pod with
                    Spec := { pod.Spec with
                      SecurityContext := some { RunAsUser := some (strconv.ParseInt uid).1 } } }
                | none => pod
              -- rewrite Pod spec
              let marshaledPod := (lib.Marshal pod).1
              some { response := admission.PatchResponseFromRaw lib req.Object.Raw marshaledPod
                     reads := [key]
                     marshaled := some pod }

/-- The Pod after the assignment of the `if found` branch with the parsed
value `v`: its security context is the literal
`&corev1.PodSecurityContext{RunAsUser: &v}`, everything else is as before. -/
def withRunAsUser (pod : Pod) (v : Int) : Pod :=
  { pod with Spec := { pod.Spec with SecurityContext := some { RunAsUser := some v } } }

/-- The caller name passes both tests of the handler: it has the
service-account prefix and splits into exactly four pieces. -/
def wellFormed (username : String) : Prop :=
  strings.HasPrefix username "system:serviceaccount:" = true ∧
    (strings.Split username ':').length = 4

instance (username : String) : Decidable (wellFormed username) :=
  inferInstanceAs (Decidable (_ ∧ _))

/-! ## A sample cluster, for running the handler on concrete requests -/

/-- A Pod in namespace `ns` that asks to run as root. -/
def samplePod (ns : String) : Pod :=
  { ObjectMeta := { Name := "job", Namespace := ns }
    Spec := { SecurityContext := some { RunAsUser := some 0, RunAsNonRoot := some false }
              ServiceAccountName := "default" } }

/-- A request from `username`. -/
def sampleRequest (username : String) : Request :=
  { UserInfo := { Username := username }, Object := { Raw := [1] } }

/-- An encoder that writes the length of the namespace and the low byte of the
pod-level `RunAsUser`. -/
def sampleMarshal (pod : Pod) : Bytes × Option GoError :=
  (Fin.ofNat pod.Namespace.length ::
    (match pod.Spec.SecurityContext with
     | some sc =>
       match sc.RunAsUser with
       | some v => [1, Fin.ofNat v.toNat]
       | none => [1]
     | none => [0]), none)

/-- A diff that is empty on equal documents and one replacement otherwise. -/
def sampleLibs : Libs :=
  { Marshal := sampleMarshal
    CreatePatch := fun a b =>
      .ok (if a = b then [] else [{ Operation := "replace", Path := "/spec", Value := "" }]) }

/-- The mapping of the sample cluster. -/
def sampleConfigMap : ConfigMap :=
  { Data := fun k =>
      if k = "backup-agent" then some "1000"
      else if k = "huge" then some "9223372036854775808"
      else if k = "blank" then some ""
      else none }

/-- A mapping whose only key is the empty string, mapped to `"0"`. -/
def emptyKeyConfigMap : ConfigMap :=
  { Data := fun k => if k = "" then some "0" else none }

/-- An annotator for the sample mapping whose decoder knows two bodies: the
body `[1]` of `sampleRequest`, which is the sample Pod in `home`, and the
encoding of that Pod patched to run as user 1000. -/
def resubmitAnnotator : podAnnotator :=
  { Client := { Get := fun _ => .ok sampleConfigMap }
    decoder := { Decode := fun req =>
      if req.Object.Raw = [1] then Except.ok (samplePod "home")
      else if req.Object.Raw = (sampleMarshal (withRunAsUser (samplePod "home") 1000)).1 then
        Except.ok (withRunAsUser (samplePod "home") 1000)
      else Except.error { Error := "unknown body" } } }

/-- An annotator whose decoder yields `pod` and whose client answers `get`. -/
def sampleAnnotator (pod : Except GoError Pod) (get : Except GoError ConfigMap) : podAnnotator :=
  { Client := { Get := fun _ => get }, decoder := { Decode := fun _ => pod } }

/-! ## A sample cluster whose bodies are text

The bodies of this cluster are the text of one non-negative number, the
pod-level `runAsUser` of a Pod in `home`: as a JSON document the bare number (`1000`),
as a YAML document the number after the document marker (`--- 1000`).  The
collaborators behave on these bodies as the libraries behind the handler do:
the decoder of the admission framework reads JSON and YAML into the typed Pod
and rejects a number that does not fit `int64`; `json.Marshal` writes the
`int64` exactly; `jsonpatch.CreatePatch` reads both documents as JSON with
every number as a `float64`, and fails on a document that is not JSON. -/

/-- The bytes of a text. -/
def textBytes (cs : List Char) : Bytes := cs.map fun c => Fin.ofNat c.toNat

/-- The text of a body. -/
def bytesText (b : Bytes) : List Char := b.map fun x => Char.ofNat x.val

/-- The decimal digits of `n`, most significant first (up to `fuel` digits). -/
def writeDecimal : Nat → Nat → List Char
  | 0, _ => []
  | fuel + 1, n =>
    if n < 10 then [strconv.digitChar n]
    else writeDecimal fuel (n / 10) ++ [strconv.digitChar (n % 10)]

/-- The number written by a non-empty run of decimal digits, of any size. -/
def readDecimal (cs : List Char) : Option Nat :=
  if cs ≠ [] ∧ cs.all (fun c => decide (0x30 ≤ c.toNat ∧ c.toNat ≤ 0x39)) then
    some (cs.foldl (fun n c => n * 10 + (c.toNat - 0x30)) 0)
  else none

/-- The number of binary digits of `n` (up to `fuel` of them). -/
def bitLength : Nat → Nat → Nat
  | 0, _ => 0
  | fuel + 1, n => if n = 0 then 0 else bitLength fuel (n / 2) + 1

/-- The integer value of `float64(n)` for a natural number `n < 2^128`: `n`
itself when it has at most 53 binary digits, else `n` rounded to 53
significant binary digits, to nearest and ties to even.  This is what a JSON
number read into an `interface{}` becomes. -/
def float64 (n : Nat) : Nat :=
  let bits := bitLength 128 n
  if bits ≤ 53 then n
  else
    let ulp := 2 ^ (bits - 53)
    let q := n / ulp
    let r := n % ulp
    (if 2 * r > ulp ∨ (2 * r = ulp ∧ q % 2 = 1) then q + 1 else q) * ulp

/-- The number of a JSON body. -/
def jsonNumber (raw : Bytes) : Option Nat := readDecimal (bytesText raw)

/-- The text of the number of a body that is JSON or YAML. -/
def yamlNumberText (raw : Bytes) : List Char :=
  if ("--- ".data).isPrefixOf (bytesText raw) then (bytesText raw).drop 4 else bytesText raw

/-- The decoder of the text cluster: it reads JSON and YAML bodies, the number
through `strconv.ParseInt` as `encoding/json` does for an `int64` field, and
yields the sample Pod in `home` with that `runAsUser`. -/
def textDecoder : Decoder :=
  { Decode := fun req =>
      match readDecimal (yamlNumberText req.Object.Raw) with
      | none => Except.error { Error := "couldn't get version/kind; json parse error" }
      | some _ =>
        match strconv.ParseInt (String.mk (yamlNumberText req.Object.Raw)) with
        | (v, none) => Except.ok (withRunAsUser (samplePod "home") v)
        | (_, some _) =>
          Except.error { Error := "json: cannot unmarshal number into Go value of type int64" } }

/-- The libraries of the text cluster.  `Marshal` writes the `runAsUser` of
the Pod as a JSON number.  `CreatePatch` answers no operation on equal bytes,
fails when a document is not JSON, and otherwise compares the two numbers as
`float64`s and replaces the first by the second, written as the `float64` it
was read into. -/
def textLibs : Libs :=
  { Marshal := fun pod =>
      (textBytes (writeDecimal 20
        ((pod.Spec.SecurityContext.bind fun sc => sc.RunAsUser).getD 0).toNat), none)
    CreatePatch := fun a b =>
      if a = b then Except.ok []
      else
        match jsonNumber a, jsonNumber b with
        | some x, some y =>
          Except.ok (if float64 x = float64 y then []
            else [{ Operation := "replace", Path := "/spec/securityContext/runAsUser"
                    Value := String.mk (writeDecimal 40 (float64 y)) }])
        | _, _ => Except.error { Error := "Invalid JSON Document" } }

/-- The body after the operations of a patch are applied to it, as the API
server does with the patch of an allowed response. -/
def applyPatch (raw : Bytes) (patches : List JsonPatchOperation) : Bytes :=
  patches.foldl (fun doc op => if op.Operation = "replace" then textBytes op.Value.data else doc)
    raw

/-- The mapping of the text cluster: `backup-agent` runs as 1000 and
`max-agent` as the largest `int64`; `blank` is mapped to the empty string. -/
def textConfigMap : ConfigMap :=
  { Data := fun k =>
      if k = "backup-agent" then some "1000"
      else if k = "max-agent" then some "9223372036854775807"
      else if k = "blank" then some ""
      else none }

/-- The annotator of the text cluster. -/
def textAnnotator : podAnnotator :=
  { Client := { Get := fun _ => Except.ok textConfigMap }, decoder := textDecoder }

/-- A request of the text cluster from `username` with the body `body`. -/
def textRequest (username : String) (body : String) : Request :=
  { UserInfo := { Username := username }, Object := { Raw := textBytes body.data } }

/-! ## Facts about `strings.Split` and `strings.HasPrefix` -/

namespace strings

theorem splitChars_ne_nil (sep : Char) (cs : List Char) : splitChars sep cs ≠ [] := by
  cases cs with
  | nil => simp [splitChars]
  | cons c cs =>
    unfold splitChars
    split
    · simp
    · split <;> simp

/-- A string without the separator is its own single piece. -/
theorem splitChars_of_not_mem (sep : Char) (cs : List Char) (h : sep ∉ cs) :
    splitChars sep cs = [cs] := by
  induction cs with
  | nil => rfl
  | cons c cs ih =>
    have hc : c ≠ sep := fun e => h (by simp [e])
    have hcs : sep ∉ cs := fun e => h (by simp [e])
    simp [splitChars, hc, ih hcs]

/-- The first piece ends at the first separator. -/
theorem splitChars_append_sep (sep : Char) (p rest : List Char) (h : sep ∉ p) :
    splitChars sep (p ++ sep :: rest) = p :: splitChars sep rest := by
  induction p with
  | nil => simp [splitChars]
  | cons c p ih =>
    have hc : c ≠ sep := fun e => h (by simp [e])
    have hp : sep ∉ p := fun e => h (by simp [e])
    simp [splitChars, hc, ih hp]

/-- No piece contains the separator. -/
theorem splitChars_not_mem (sep : Char) (cs : List Char) :
    ∀ p ∈ splitChars sep cs, sep ∉ p := by
  induction cs with
  | nil => simp [splitChars]
  | cons c cs ih =>
    unfold splitChars
    by_cases hc : c = sep
    · simp only [hc, if_true, List.mem_cons]
      rintro p (rfl | hp)
      · simp
      · exact ih p hp
    · simp only [hc, if_false]
      cases hsp : splitChars sep cs with
      | nil => exact absurd hsp (splitChars_ne_nil sep cs)
      | cons q qs =>
        rw [hsp] at ih
        simp only [List.mem_cons]
        rintro p (rfl | hp)
        · have hq := ih q (by simp)
          simp only [List.mem_cons, not_or]
          exact ⟨fun e => hc e.symm, hq⟩
        · exact ih p (by simp [hp])

/-- There is one more piece than there are separators. -/
theorem splitChars_length (sep : Char) (cs : List Char) :
    (splitChars sep cs).length = cs.count sep + 1 := by
  induction cs with
  | nil => rfl
  | cons c cs ih =>
    unfold splitChars
    by_cases hc : c = sep
    · simp [hc, ih]
    · simp only [hc, if_false]
      cases hsp : splitChars sep cs with
      | nil => exact absurd hsp (splitChars_ne_nil sep cs)
      | cons q qs =>
        rw [hsp] at ih
        rw [List.count_cons_of_ne (fun e => hc e.symm)]
        simpa using ih

/-- Two pieces: the string is the first piece, the separator, the second. -/
theorem eq_of_splitChars_pair (sep : Char) (cs a b : List Char)
    (h : splitChars sep cs = [a, b]) : cs = a ++ sep :: b := by
  induction cs generalizing a with
  | nil => simp [splitChars] at h
  | cons c cs ih =>
    unfold splitChars at h
    by_cases hc : c = sep
    · simp only [hc, if_true, List.cons.injEq] at h
      obtain ⟨rfl, h2⟩ := h
      have hmem : sep ∉ cs := by
        have hl := splitChars_length sep cs
        rw [h2] at hl
        have h0 : cs.count sep = 0 := by simpa using hl.symm
        exact List.count_eq_zero.mp h0
      rw [splitChars_of_not_mem sep cs hmem] at h2
      simp only [List.cons.injEq, and_true] at h2
      simp [hc, h2]
    · simp only [hc, if_false] at h
      cases hsp : splitChars sep cs with
      | nil => exact absurd hsp (splitChars_ne_nil sep cs)
      | cons q qs =>
        rw [hsp] at h
        simp only [List.cons.injEq] at h
        obtain ⟨rfl, rfl⟩ := h
        have := ih q hsp
        simp [this]

/-- The bytes of the literal `"system:serviceaccount:"`. -/
theorem saPrefix_data : ("system:serviceaccount:" : String).data =
    "system".data ++ ':' :: ("serviceaccount".data ++ ':' :: []) := by
  decide

theorem not_mem_system : ':' ∉ ("system" : String).data := by decide

theorem not_mem_serviceaccount : ':' ∉ ("serviceaccount" : String).data := by decide

/-- Splitting a string that starts with `system:serviceaccount:`. -/
theorem splitChars_saPrefix (rest : List Char) :
    splitChars ':' (("system:serviceaccount:" : String).data ++ rest) =
      "system".data :: "serviceaccount".data :: splitChars ':' rest := by
  have e : ("system".data ++ ':' :: ("serviceaccount".data ++ ':' :: [])) ++ rest =
      "system".data ++ ':' :: ("serviceaccount".data ++ ':' :: rest) := by
    simp
  rw [saPrefix_data, e, splitChars_append_sep _ _ _ not_mem_system,
    splitChars_append_sep _ _ _ not_mem_serviceaccount]

/-- The two tests of the handler on the caller name, taken together, say that
the name is `system:serviceaccount:<ns>:<name>` with no colon inside `<ns>`
or `<name>`. -/
theorem shape_iff (u : String) :
    (HasPrefix u "system:serviceaccount:" = true ∧ (Split u ':').length = 4) ↔
      ∃ ns name : String, ':' ∉ ns.data ∧ ':' ∉ name.data ∧
        u = "system:serviceaccount:" ++ ns ++ ":" ++ name := by
  constructor
  · rintro ⟨hp, hl⟩
    unfold HasPrefix at hp
    rw [List.isPrefixOf_iff_prefix] at hp
    obtain ⟨rest, hrest⟩ := hp
    unfold Split at hl
    rw [← hrest, splitChars_saPrefix, List.map_cons, List.map_cons, List.length_cons,
      List.length_cons, List.length_map] at hl
    have hl2 : (splitChars ':' rest).length = 2 := by omega
    match hsp : splitChars ':' rest, hl2 with
    | [a, b], _ =>
      have hmem := splitChars_not_mem ':' rest
      rw [hsp] at hmem
      refine ⟨⟨a⟩, ⟨b⟩, hmem a (by simp), hmem b (by simp), ?_⟩
      apply String.ext
      rw [← hrest, eq_of_splitChars_pair ':' rest a b hsp]
      simp [String.data_append]
  · rintro ⟨ns, name, hns, hname, rfl⟩
    have hd : ("system:serviceaccount:" ++ ns ++ ":" ++ name : String).data =
        ("system:serviceaccount:" : String).data ++ (ns.data ++ ':' :: name.data) := by
      simp [String.data_append]
    constructor
    · unfold HasPrefix
      rw [List.isPrefixOf_iff_prefix, hd]
      exact List.prefix_append _ _
    · unfold Split
      rw [hd, splitChars_saPrefix, splitChars_append_sep _ _ _ hns,
        splitChars_of_not_mem _ _ hname]
      rfl

/-- The pieces of a well-formed service-account name. -/
theorem Split_serviceaccount (ns name : String) (hns : ':' ∉ ns.data)
    (hname : ':' ∉ name.data) :
    Split ("system:serviceaccount:" ++ ns ++ ":" ++ name) ':' =
      ["system", "serviceaccount", ns, name] := by
  have hd : ("system:serviceaccount:" ++ ns ++ ":" ++ name : String).data =
      ("system:serviceaccount:" : String).data ++ (ns.data ++ ':' :: name.data) := by
    simp [String.data_append]
  unfold Split
  rw [hd, splitChars_saPrefix, splitChars_append_sep _ _ _ hns,
    splitChars_of_not_mem _ _ hname]
  rfl

end strings

/-! ## Facts about `strconv.ParseInt` -/

namespace strconv

theorem maxVal_eq : maxVal = 18446744073709551615 := by decide

theorem cutoff_eq : cutoff = 1844674407370955162 := by decide

theorem toNat_digitChar (d : Nat) (h : d < 10) : (digitChar d).toNat = 0x30 + d := by
  interval_cases d <;> rfl

theorem digitChar_ne_plus (d : Nat) (h : d < 10) : digitChar d ≠ '+' := by
  interval_cases d <;> decide

theorem digitChar_ne_minus (d : Nat) (h : d < 10) : digitChar d ≠ '-' := by
  interval_cases d <;> decide

theorem le_foldl_pushDigit (ds : List Nat) (n : Nat) : n ≤ ds.foldl pushDigit n := by
  induction ds generalizing n with
  | nil => exact Nat.le_refl _
  | cons d ds ih =>
    have := ih (pushDigit n d)
    simp only [List.foldl_cons]
    unfold pushDigit at this ⊢
    omega

/-- One turn of the loop on a digit byte. -/
theorem parseUintLoop_digit (d : Nat) (hd : d < 10) (cs : List Char) (n : Nat) :
    parseUintLoop (digitChar d :: cs) n =
      if n ≥ cutoff then (maxVal, some NumErr.ErrRange)
      else if (n * 10 % 2 ^ 64 + d) % 2 ^ 64 < n * 10 % 2 ^ 64 ∨
          (n * 10 % 2 ^ 64 + d) % 2 ^ 64 > maxVal then (maxVal, some NumErr.ErrRange)
      else parseUintLoop cs ((n * 10 % 2 ^ 64 + d) % 2 ^ 64) := by
  have hb := toNat_digitChar d hd
  rw [parseUintLoop]
  simp only [hb]
  have h1 : (0x30 ≤ 0x30 + d ∧ 0x30 + d ≤ 0x39) := by omega
  simp only [h1, and_self, if_true, Nat.add_sub_cancel_left]
  have h2 : ¬ d ≥ 10 := by omega
  simp only [h2, if_false]

/-- On a run of digits whose value fits `uint64` the loop returns that value
with no error. -/
theorem parseUintLoop_digits (ds : List Nat) (hds : ∀ d ∈ ds, d < 10) (n : Nat)
    (hfit : ds.foldl pushDigit n < 2 ^ 64) :
    parseUintLoop (ds.map digitChar) n = (ds.foldl pushDigit n, none) := by
  induction ds generalizing n with
  | nil => rfl
  | cons d ds ih =>
    have hd : d < 10 := hds d (by simp)
    have hds2 : ∀ x ∈ ds, x < 10 := fun x hx => hds x (by simp [hx])
    simp only [List.foldl_cons] at hfit
    have hle := le_foldl_pushDigit ds (pushDigit n d)
    have hpd : pushDigit n d = n * 10 + d := rfl
    have hn1 : n * 10 + d < 2 ^ 64 := by omega
    rw [List.map_cons, parseUintLoop_digit d hd, cutoff_eq, maxVal_eq]
    norm_num at hn1
    have hc : ¬ n ≥ 1844674407370955162 := by omega
    simp only [hc, if_false]
    have e1 : n * 10 % 2 ^ 64 = n * 10 := Nat.mod_eq_of_lt (by norm_num; omega)
    have e2 : (n * 10 + d) % 2 ^ 64 = n * 10 + d := Nat.mod_eq_of_lt (by norm_num; omega)
    rw [e1, e2]
    have hc2 : ¬ (n * 10 + d < n * 10 ∨ n * 10 + d > 18446744073709551615) := by omega
    simp only [hc2, if_false, List.foldl_cons]
    exact ih hds2 (n * 10 + d) hfit

/-- On a run of digits whose value does not fit `uint64` the loop stops with a
range error and the largest `uint64`. -/
theorem parseUintLoop_overflow (ds : List Nat) (hds : ∀ d ∈ ds, d < 10) (n : Nat)
    (hn : n < 2 ^ 64) (hbig : 2 ^ 64 ≤ ds.foldl pushDigit n) (rest : List Char) :
    parseUintLoop (ds.map digitChar ++ rest) n = (maxVal, some NumErr.ErrRange) := by
  induction ds generalizing n with
  | nil => simp only [List.foldl_nil] at hbig; omega
  | cons d ds ih =>
    have hd : d < 10 := hds d (by simp)
    have hds2 : ∀ x ∈ ds, x < 10 := fun x hx => hds x (by simp [hx])
    simp only [List.foldl_cons] at hbig
    rw [List.map_cons, List.cons_append, parseUintLoop_digit d hd, cutoff_eq, maxVal_eq]
    by_cases hc : n ≥ 1844674407370955162
    · simp only [hc, if_true]
    · simp only [hc, if_false]
      have e1 : n * 10 % 2 ^ 64 = n * 10 := Nat.mod_eq_of_lt (by norm_num; omega)
      rw [e1]
      by_cases hw : n * 10 + d < 2 ^ 64
      · have e2 : (n * 10 + d) % 2 ^ 64 = n * 10 + d := Nat.mod_eq_of_lt hw
        rw [e2]
        norm_num at hw
        have hc2 : ¬ (n * 10 + d < n * 10 ∨ n * 10 + d > 18446744073709551615) := by omega
        simp only [hc2, if_false]
        exact ih hds2 (n * 10 + d) (by norm_num; omega) hbig
      · have hw2 : (n * 10 + d) % 2 ^ 64 < n * 10 := by
          norm_num at hw ⊢
          omega
        simp only [hw2, true_or, if_true]

/-- A byte that is not an ASCII digit, met while the value read so far fits,
stops the loop with a syntax error and the value `0`. -/
theorem parseUintLoop_nondigit (ds : List Nat) (hds : ∀ d ∈ ds, d < 10) (n : Nat)
    (hfit : ds.foldl pushDigit n < 2 ^ 64) (c : Char)
    (hc : ¬ (0x30 ≤ c.toNat ∧ c.toNat ≤ 0x39)) (rest : List Char) :
    parseUintLoop (ds.map digitChar ++ c :: rest) n = (0, some NumErr.ErrSyntax) := by
  induction ds generalizing n with
  | nil =>
    rw [List.map_nil, List.nil_append, parseUintLoop]
    simp only [hc, if_false]
    split
    · rfl
    · next d hd =>
      split at hd
      · simp only [Option.some.injEq] at hd
        have : d ≥ 10 := by omega
        simp only [this, if_true]
      · exact absurd hd (by simp)
  | cons d ds ih =>
    have hd : d < 10 := hds d (by simp)
    have hds2 : ∀ x ∈ ds, x < 10 := fun x hx => hds x (by simp [hx])
    simp only [List.foldl_cons] at hfit
    have hle := le_foldl_pushDigit ds (pushDigit n d)
    have hpd : pushDigit n d = n * 10 + d := rfl
    have hn1 : n * 10 + d < 2 ^ 64 := by omega
    rw [List.map_cons, List.cons_append, parseUintLoop_digit d hd, cutoff_eq, maxVal_eq]
    norm_num at hn1
    have hc1 : ¬ n ≥ 1844674407370955162 := by omega
    simp only [hc1, if_false]
    have e1 : n * 10 % 2 ^ 64 = n * 10 := Nat.mod_eq_of_lt (by norm_num; omega)
    have e2 : (n * 10 + d) % 2 ^ 64 = n * 10 + d := Nat.mod_eq_of_lt (by norm_num; omega)
    rw [e1, e2]
    have hc2 : ¬ (n * 10 + d < n * 10 ∨ n * 10 + d > 18446744073709551615) := by omega
    simp only [hc2, if_false]
    exact ih hds2 (n * 10 + d) hfit

theorem int64_of_fits (x : Int) (h1 : -(2 ^ 63) ≤ x) (h2 : x < 2 ^ 63) : int64 x = x := by
  unfold int64
  norm_num at h1 h2 ⊢
  omega

/-- `ParseUint` reports nothing but a syntax error with `0`, a range error
with the largest `uint64`, or success. -/
theorem parseUintLoop_cases (cs : List Char) (n : Nat) :
    parseUintLoop cs n = (0, some NumErr.ErrSyntax) ∨
    parseUintLoop cs n = (maxVal, some NumErr.ErrRange) ∨
    (parseUintLoop cs n).2 = none := by
  induction cs generalizing n with
  | nil => right; right; rfl
  | cons c cs ih =>
    rw [parseUintLoop]
    dsimp only
    split
    · left; rfl
    · split
      · left; rfl
      · split
        · right; left; rfl
        · split
          · right; left; rfl
          · exact ih _

theorem ParseUint_cases (cs : List Char) :
    ParseUint cs = (0, some NumErr.ErrSyntax) ∨
    ParseUint cs = (maxVal, some NumErr.ErrRange) ∨
    (ParseUint cs).2 = none := by
  unfold ParseUint
  split
  · left; rfl
  · exact parseUintLoop_cases cs 0

/-- `ParseInt` in terms of the sign and of what `ParseUint` returns on the
rest. -/
theorem ParseInt_cons (s : String) (c : Char) (r : List Char) (hs : s.data = c :: r)
    (neg : Bool) (body : List Char)
    (hsign : (if c = '+' then (false, r) else if c = '-' then (true, r) else (false, c :: r)) =
      (neg, body)) :
    ParseInt s =
      if (ParseUint body).2 ≠ none ∧ (ParseUint body).2 ≠ some NumErr.ErrRange then
        (0, (ParseUint body).2)
      else if !neg ∧ (ParseUint body).1 ≥ 2 ^ 63 then
        (((2 ^ 63 : Nat) : Int) - 1, some NumErr.ErrRange)
      else if neg ∧ (ParseUint body).1 > 2 ^ 63 then (-((2 ^ 63 : Nat) : Int), some NumErr.ErrRange)
      else (if neg then int64 (-(int64 (ParseUint body).1)) else int64 (ParseUint body).1, none) := by
  unfold ParseInt
  rw [hs]
  simp only [hsign]

/-- The value returned next to an error is determined by the error kind and
the sign. -/
theorem ParseInt_error_value (s : String) (e : NumErr) (h : (ParseInt s).2 = some e) :
    (ParseInt s).1 = errorValue s e := by
  cases hs : s.data with
  | nil =>
    have hp : ParseInt s = (0, some NumErr.ErrSyntax) := by
      unfold ParseInt; rw [hs]
    rw [hp] at h ⊢
    simp only [Option.some.injEq] at h
    subst h
    rfl
  | cons c r =>
    obtain ⟨neg, body, hsign, hneg⟩ : ∃ neg body,
        (if c = '+' then (false, r) else if c = '-' then (true, r) else (false, c :: r)) =
          (neg, body) ∧ (neg = true ↔ c = '-') := by
      by_cases h1 : c = '+'
      · exact ⟨false, r, by simp [h1], by simp [h1]⟩
      · by_cases h2 : c = '-'
        · exact ⟨true, r, by simp [h2], by simp [h2]⟩
        · exact ⟨false, c :: r, by simp [h1, h2], by simp [h2]⟩
    have hp := ParseInt_cons s c r hs neg body hsign
    rw [hp] at h ⊢
    have hhead : s.data.head? = some c := by rw [hs]; rfl
    rcases ParseUint_cases body with hu | hu | hu
    · rw [hu] at h ⊢
      simp only [ne_eq, not_false_eq_true, and_self, if_true, reduceCtorEq,
        Option.some.injEq] at h ⊢
      subst h
      rfl
    · rw [hu, maxVal_eq] at h ⊢
      cases neg with
      | true =>
        have hc : c = '-' := hneg.mp rfl
        norm_num at h ⊢
        subst h
        simp [errorValue, hhead, hc]
      | false =>
        have hc : c ≠ '-' := fun e => by simpa using hneg.mpr e
        norm_num at h ⊢
        subst h
        simp [errorValue, hhead, hc]
    · rw [hu] at h ⊢
      simp only [ne_eq, not_true_eq_false, false_and, if_false] at h ⊢
      cases neg with
      | true =>
        have hc : c = '-' := hneg.mp rfl
        simp only [Bool.not_true, Bool.false_eq_true, false_and, if_false, true_and] at h ⊢
        by_cases hgt : (ParseUint body).1 > 2 ^ 63
        · simp only [hgt, if_true, Option.some.injEq] at h ⊢
          subst h
          simp [errorValue, hhead, hc]
        · rw [if_neg hgt] at h
          exact absurd h (by simp)
      | false =>
        have hc : c ≠ '-' := fun e => by simpa using hneg.mpr e
        simp only [Bool.not_false, true_and, Bool.false_eq_true, false_and, if_false] at h ⊢
        by_cases hge : (ParseUint body).1 ≥ 2 ^ 63
        · simp only [hge, if_true, Option.some.injEq] at h ⊢
          subst h
          simp [errorValue, hhead, hc]
        · rw [if_neg hge] at h
          exact absurd h (by simp)

theorem ParseUint_digits (ds : List Nat) (hne : ds ≠ []) (hds : ∀ d ∈ ds, d < 10)
    (hfit : digitsValue ds < 2 ^ 64) :
    ParseUint (ds.map digitChar) = (digitsValue ds, none) := by
  unfold ParseUint
  have : ds.map digitChar ≠ [] := by simpa using hne
  rw [if_neg this]
  exact parseUintLoop_digits ds hds 0 hfit

theorem ParseUint_overflow (ds : List Nat) (hds : ∀ d ∈ ds, d < 10)
    (hbig : 2 ^ 64 ≤ digitsValue ds) :
    ParseUint (ds.map digitChar) = (maxVal, some NumErr.ErrRange) := by
  unfold ParseUint
  have hne : ds ≠ [] := by
    rintro rfl
    simp [digitsValue] at hbig
  have : ds.map digitChar ≠ [] := by simpa using hne
  rw [if_neg this]
  have := parseUintLoop_overflow ds hds 0 (by norm_num) hbig []
  simpa using this

/-- `ParseInt` on a sign followed by a run of digits: the signed value when it
fits `int64`, the bound on the side of the sign with a range error when it
does not. -/
theorem ParseInt_digits (s : String) (c : Char) (r : List Char) (hs : s.data = c :: r)
    (neg : Bool) (ds : List Nat)
    (hsign : (if c = '+' then (false, r) else if c = '-' then (true, r) else (false, c :: r)) =
      (neg, ds.map digitChar))
    (hne : ds ≠ []) (hds : ∀ d ∈ ds, d < 10) :
    ParseInt s =
      if neg then
        (if digitsValue ds ≤ 2 ^ 63 then (-(digitsValue ds : Int), none)
         else (-(2 ^ 63), some NumErr.ErrRange))
      else
        (if digitsValue ds < 2 ^ 63 then ((digitsValue ds : Int), none)
         else (2 ^ 63 - 1, some NumErr.ErrRange)) := by
  rw [ParseInt_cons s c r hs neg _ hsign]
  by_cases hfit : digitsValue ds < 2 ^ 64
  · rw [ParseUint_digits ds hne hds hfit]
    simp only [ne_eq, not_true_eq_false, false_and, if_false]
    cases neg with
    | true =>
      simp only [Bool.not_true, Bool.false_eq_true, false_and, if_false, true_and, if_true]
      by_cases hv : digitsValue ds ≤ 2 ^ 63
      · have hv2 : ¬ digitsValue ds > 2 ^ 63 := by omega
        rw [if_neg hv2, if_pos hv]
        have e : int64 (-(int64 (digitsValue ds : Int))) = -(digitsValue ds : Int) := by
          unfold int64
          norm_num at hv ⊢
          omega
        rw [e]
      · have hv2 : digitsValue ds > 2 ^ 63 := by omega
        rw [if_pos hv2, if_neg hv]
        norm_num
    | false =>
      simp only [Bool.not_false, true_and, Bool.false_eq_true, false_and, if_false]
      by_cases hv : digitsValue ds < 2 ^ 63
      · have hv2 : ¬ digitsValue ds ≥ 2 ^ 63 := by omega
        rw [if_neg hv2, if_pos hv]
        have e : int64 (digitsValue ds : Int) = (digitsValue ds : Int) := by
          unfold int64
          norm_num at hv ⊢
          omega
        rw [e]
      · have hv2 : digitsValue ds ≥ 2 ^ 63 := by omega
        rw [if_pos hv2, if_neg hv]
        norm_num
  · rw [ParseUint_overflow ds hds (by omega), maxVal_eq]
    cases neg with
    | true =>
      have hv : ¬ digitsValue ds ≤ 2 ^ 63 := by norm_num at hfit ⊢; omega
      rw [if_pos rfl, if_neg hv]
      norm_num
    | false =>
      have hv : ¬ digitsValue ds < 2 ^ 63 := by norm_num at hfit ⊢; omega
      rw [if_neg (by simp), if_neg hv]
      norm_num

/-- A decimal numeral of an integer that fits `int64` parses to that integer,
with no error. -/
theorem ParseInt_of_decimal (s : String) (V : Int) (h : IsDecimalOf s V)
    (h1 : -(2 ^ 63) ≤ V) (h2 : V < 2 ^ 63) : ParseInt s = (V, none) := by
  obtain ⟨ds, hne, hds, hform⟩ := h
  obtain ⟨d, ds2, rfl⟩ := List.exists_cons_of_ne_nil hne
  have hd : d < 10 := hds d (by simp)
  rcases hform with ⟨hs, hV⟩ | ⟨hs, hV⟩ | ⟨hs, hV⟩
  · rw [List.map_cons] at hs
    rw [ParseInt_digits s _ _ hs false (d :: ds2)
      (by simp [digitChar_ne_plus d hd, digitChar_ne_minus d hd]) hne hds]
    have hv : digitsValue (d :: ds2) < 2 ^ 63 := by omega
    rw [if_neg (by simp), if_pos hv, hV]
  · rw [ParseInt_digits s _ _ hs false (d :: ds2) (by simp) hne hds]
    have hv : digitsValue (d :: ds2) < 2 ^ 63 := by omega
    rw [if_neg (by simp), if_pos hv, hV]
  · rw [ParseInt_digits s _ _ hs true (d :: ds2) (by simp) hne hds]
    have hv : digitsValue (d :: ds2) ≤ 2 ^ 63 := by omega
    rw [if_pos rfl, if_pos hv, hV]

/-- A decimal numeral of an integer outside `int64` gives a range error and
the bound of `int64` on the side of its sign. -/
theorem ParseInt_of_decimal_overflow (s : String) (V : Int) (h : IsDecimalOf s V)
    (hout : V < -(2 ^ 63) ∨ 2 ^ 63 ≤ V) :
    ParseInt s = (if V < 0 then -(2 ^ 63) else 2 ^ 63 - 1, some NumErr.ErrRange) := by
  obtain ⟨ds, hne, hds, hform⟩ := h
  obtain ⟨d, ds2, rfl⟩ := List.exists_cons_of_ne_nil hne
  have hd : d < 10 := hds d (by simp)
  rcases hform with ⟨hs, hV⟩ | ⟨hs, hV⟩ | ⟨hs, hV⟩
  · rw [List.map_cons] at hs
    rw [ParseInt_digits s _ _ hs false (d :: ds2)
      (by simp [digitChar_ne_plus d hd, digitChar_ne_minus d hd]) hne hds]
    have hv : ¬ digitsValue (d :: ds2) < 2 ^ 63 := by omega
    have hV0 : ¬ V < 0 := by omega
    rw [if_neg (by simp), if_neg hv, if_neg hV0]
  · rw [ParseInt_digits s _ _ hs false (d :: ds2) (by simp) hne hds]
    have hv : ¬ digitsValue (d :: ds2) < 2 ^ 63 := by omega
    have hV0 : ¬ V < 0 := by omega
    rw [if_neg (by simp), if_neg hv, if_neg hV0]
  · rw [ParseInt_digits s _ _ hs true (d :: ds2) (by simp) hne hds]
    have hv : ¬ digitsValue (d :: ds2) ≤ 2 ^ 63 := by omega
    have hV0 : V < 0 := by omega
    rw [if_pos rfl, if_neg hv, if_pos hV0]

theorem foldl_pushDigit_reverse (l : List Nat) :
    l.reverse.foldl pushDigit 0 = Nat.ofDigits 10 l := by
  induction l with
  | nil => rfl
  | cons d l ih =>
    rw [List.reverse_cons, List.foldl_append, ih, Nat.ofDigits_cons]
    simp only [List.foldl_cons, List.foldl_nil, pushDigit]
    omega

/-- The numeral written by `FormatInt` is a decimal numeral of its argument. -/
theorem IsDecimalOf_FormatInt (V : Int) : IsDecimalOf (FormatInt V) V := by
  have hds : ∃ ds : List Nat, ds ≠ [] ∧ (∀ d ∈ ds, d < 10) ∧ digitsValue ds = V.natAbs ∧
      (if V.natAbs = 0 then [0] else (Nat.digits 10 V.natAbs).reverse) = ds := by
    by_cases h0 : V.natAbs = 0
    · refine ⟨[0], by simp, by simp, ?_, by simp [h0]⟩
      rw [h0]
      rfl
    · refine ⟨(Nat.digits 10 V.natAbs).reverse, ?_, ?_, ?_, by simp [h0]⟩
      · simpa using Nat.digits_ne_nil_iff_ne_zero.mpr h0
      · intro d hd
        exact Nat.digits_lt_base (by norm_num) (List.mem_reverse.mp hd)
      · unfold digitsValue
        rw [foldl_pushDigit_reverse, Nat.ofDigits_digits]
  obtain ⟨ds, hne, hlt, hval, hform⟩ := hds
  refine ⟨ds, hne, hlt, ?_⟩
  by_cases hneg : V < 0
  · right; right
    refine ⟨?_, ?_⟩
    · simp only [FormatInt, hform, hneg, if_true]
      rfl
    · rw [hval]
      omega
  · left
    refine ⟨?_, ?_⟩
    · simp only [FormatInt, hform, hneg, if_false, List.nil_append]
    · rw [hval]
      omega

/-- Round trip: `ParseInt` reads back what `FormatInt` writes, for every
integer of the `int64` range. -/
theorem ParseInt_FormatInt (V : Int) (h1 : -(2 ^ 63) ≤ V) (h2 : V < 2 ^ 63) :
    ParseInt (FormatInt V) = (V, none) :=
  ParseInt_of_decimal _ V (IsDecimalOf_FormatInt V) h1 h2

/-- A byte that is not an ASCII digit, met in the digits before they overflow
`uint64`, gives a syntax error and the value `0`.  Here `pre` is the sign that
`ParseInt` strips (or nothing) and `c` the offending byte. -/
theorem ParseInt_nondigit (s : String) (pre : List Char) (ds : List Nat) (c : Char)
    (rest : List Char) (hs : s.data = pre ++ (ds.map digitChar ++ c :: rest))
    (hpre : pre = [] ∨ pre = ['+'] ∨ pre = ['-'])
    (hds : ∀ d ∈ ds, d < 10) (hfit : digitsValue ds < 2 ^ 64)
    (hc : ¬ (0x30 ≤ c.toNat ∧ c.toNat ≤ 0x39))
    (hsign : pre = [] → ds = [] → c ≠ '+' ∧ c ≠ '-') :
    ParseInt s = (0, some NumErr.ErrSyntax) := by
  have hbody : ParseUint (ds.map digitChar ++ c :: rest) = (0, some NumErr.ErrSyntax) := by
    unfold ParseUint
    rw [if_neg (by simp)]
    exact parseUintLoop_nondigit ds hds 0 hfit c hc rest
  have hfin : ∀ (c0 : Char) (r : List Char) (neg : Bool), s.data = c0 :: r →
      (if c0 = '+' then (false, r) else if c0 = '-' then (true, r) else (false, c0 :: r)) =
        (neg, ds.map digitChar ++ c :: rest) → ParseInt s = (0, some NumErr.ErrSyntax) := by
    intro c0 r neg h0 hsg
    rw [ParseInt_cons s c0 r h0 neg _ hsg, hbody]
    simp
  rcases hpre with rfl | rfl | rfl
  · rw [List.nil_append] at hs
    cases ds with
    | nil =>
      obtain ⟨hp, hm⟩ := hsign rfl rfl
      exact hfin c rest false hs (by simp [hp, hm])
    | cons d ds2 =>
      have hd : d < 10 := hds d (by simp)
      exact hfin (digitChar d) (ds2.map digitChar ++ c :: rest) false hs
        (by simp [digitChar_ne_plus d hd, digitChar_ne_minus d hd])
  · exact hfin '+' _ false hs (by simp)
  · exact hfin '-' _ true hs (by simp)

end strconv

/-! ## The runs of the handler -/

/-- The run on a request whose Pod does not decode. -/
theorem Handle_decode_error (a : podAnnotator) (lib : Libs) (req : Request) (err : GoError)
    (hdec : a.decoder.Decode req = .error err) :
    Handle a lib req = some { response := admission.Errored StatusBadRequest err } := by
  unfold Handle
  rw [hdec]

/-- The run on a Pod outside `home`. -/
theorem Handle_other_namespace (a : podAnnotator) (lib : Libs) (req : Request) (pod : Pod)
    (hdec : a.decoder.Decode req = .ok pod) (hns : pod.Namespace ≠ "home") :
    Handle a lib req = some { response := admission.Allowed "Not the target namespace" } := by
  unfold Handle
  rw [hdec]
  simp only [hns, ne_eq, not_false_eq_true, if_true]

/-- The run on a Pod in `home` whose caller name lacks the prefix. -/
theorem Handle_no_prefix (a : podAnnotator) (lib : Libs) (req : Request) (pod : Pod)
    (hdec : a.decoder.Decode req = .ok pod) (hns : pod.Namespace = "home")
    (hp : strings.HasPrefix req.UserInfo.Username "system:serviceaccount:" = false) :
    Handle a lib req =
      some { response := admission.Denied "Request is not from a ServiceAccount" } := by
  unfold Handle
  rw [hdec]
  simp only [hns, ne_eq, not_true_eq_false, if_false, hp, Bool.not_false, if_true]

/-- The run on a Pod in `home` whose caller name has the prefix but not four
pieces. -/
theorem Handle_bad_parts (a : podAnnotator) (lib : Libs) (req : Request) (pod : Pod)
    (hdec : a.decoder.Decode req = .ok pod) (hns : pod.Namespace = "home")
    (hp : strings.HasPrefix req.UserInfo.Username "system:serviceaccount:" = true)
    (hl : (strings.Split req.UserInfo.Username ':').length ≠ 4) :
    Handle a lib req =
      some { response := admission.Denied "Invalid ServiceAccount format in request" } := by
  unfold Handle
  rw [hdec]
  simp only [hns, ne_eq, not_true_eq_false, if_false, hp, Bool.not_true, Bool.false_eq_true, hl,
    not_false_eq_true, if_true]

/-- Four pieces have a fourth piece. -/
theorem fourth_piece (u : String) (hl : (strings.Split u ':').length = 4) :
    ∃ sa, (strings.Split u ':')[3]? = some sa := by
  have h3 : 3 < (strings.Split u ':').length := by omega
  exact ⟨(strings.Split u ':')[3], List.getElem?_eq_getElem h3⟩

/-- The run on a Pod in `home` with a caller name that passes both tests:
what remains is the fetch of the mapping and what follows it. -/
theorem Handle_wellFormed (a : podAnnotator) (lib : Libs) (req : Request) (pod : Pod)
    (sa : String) (hdec : a.decoder.Decode req = .ok pod) (hns : pod.Namespace = "home")
    (hw : wellFormed req.UserInfo.Username)
    (hsa : (strings.Split req.UserInfo.Username ':')[3]? = some sa) :
    Handle a lib req =
      match a.Client.Get configMapKey with
      | .error err =>
        if err.IsNotFound then
          some { response := admission.Denied "ConfigMap not found", reads := [configMapKey] }
        else
          some { response := admission.Errored StatusInternalServerError err
                 reads := [configMapKey] }
      | .ok configMap =>
        some { response := admission.PatchResponseFromRaw lib req.Object.Raw
                 (lib.Marshal (match configMap.Data sa with
                               | some uid => withRunAsUser pod (strconv.ParseInt uid).1
                               | none => pod)).1
               reads := [configMapKey]
               marshaled := some (match configMap.Data sa with
                                  | some uid => withRunAsUser pod (strconv.ParseInt uid).1
                                  | none => pod) } := by
  obtain ⟨hp, hl⟩ := hw
  unfold Handle
  rw [hdec]
  simp only [hns, ne_eq, not_true_eq_false, if_false, hp, Bool.not_true, Bool.false_eq_true, hl,
    hsa]
  rfl

/-- The fourth piece of `system:serviceaccount:<ns>:<name>` is `<name>`. -/
theorem serviceaccount_name (ns name : String) (hns : ':' ∉ ns.data) (hname : ':' ∉ name.data) :
    wellFormed ("system:serviceaccount:" ++ ns ++ ":" ++ name) ∧
      (strings.Split ("system:serviceaccount:" ++ ns ++ ":" ++ name) ':')[3]? = some name := by
  refine ⟨(strings.shape_iff _).mpr ⟨ns, name, hns, hname, rfl⟩, ?_⟩
  rw [strings.Split_serviceaccount ns name hns hname]
  rfl

/-- The handler never panics: every run returns a response. -/
theorem Handle_total (a : podAnnotator) (lib : Libs) (req : Request) :
    ∃ out, Handle a lib req = some out := by
  cases hdec : a.decoder.Decode req with
  | error err => exact ⟨_, Handle_decode_error a lib req err hdec⟩
  | ok pod =>
    by_cases hns : pod.Namespace = "home"
    · cases hp : strings.HasPrefix req.UserInfo.Username "system:serviceaccount:" with
      | false => exact ⟨_, Handle_no_prefix a lib req pod hdec hns hp⟩
      | true =>
        by_cases hl : (strings.Split req.UserInfo.Username ':').length = 4
        · obtain ⟨sa, hsa⟩ := fourth_piece _ hl
          rw [Handle_wellFormed a lib req pod sa hdec hns ⟨hp, hl⟩ hsa]
          cases a.Client.Get configMapKey with
          | error err =>
            dsimp only
            split <;> exact ⟨_, rfl⟩
          | ok cm => exact ⟨_, rfl⟩
        · exact ⟨_, Handle_bad_parts a lib req pod hdec hns hp hl⟩
    · exact ⟨_, Handle_other_namespace a lib req pod hdec hns⟩

/-- A patch response is never a denial. -/
theorem PatchResponseFromRaw_ne_Denied (lib : Libs) (original current : Bytes) (msg : String) :
    admission.PatchResponseFromRaw lib original current ≠ admission.Denied msg := by
  unfold admission.PatchResponseFromRaw
  cases lib.CreatePatch original current with
  | error err =>
    intro h
    have h2 : some StatusInternalServerError = some StatusForbidden :=
      congrArg (fun r => r.Result.map Status.Code) h
    exact absurd h2 (by decide)
  | ok patches =>
    intro h
    have h2 : true = false := congrArg Response.Allowed h
    exact absurd h2 (by decide)

/-- The status code of a patch response is never 400 or 403. -/
theorem PatchResponseFromRaw_code (lib : Libs) (original current : Bytes) :
    (admission.PatchResponseFromRaw lib original current).Result.map Status.Code =
        some StatusInternalServerError ∨
      (admission.PatchResponseFromRaw lib original current).Result = none := by
  unfold admission.PatchResponseFromRaw
  cases lib.CreatePatch original current with
  | error err => left; rfl
  | ok patches => right; rfl

/-- A response that is not allowed carries no patch. -/
theorem PatchResponseFromRaw_not_allowed (lib : Libs) (original current : Bytes)
    (h : (admission.PatchResponseFromRaw lib original current).Allowed = false) :
    (admission.PatchResponseFromRaw lib original current).Patches = [] ∧
      (admission.PatchResponseFromRaw lib original current).PatchType = none := by
  unfold admission.PatchResponseFromRaw at h ⊢
  cases hc : lib.CreatePatch original current with
  | error err => exact ⟨rfl, rfl⟩
  | ok patches =>
    rw [hc] at h
    have h2 : true = false := h
    exact absurd h2 (by decide)

/-- The patch response when the diff succeeds. -/
theorem PatchResponseFromRaw_ok (lib : Libs) (original current : Bytes)
    (patches : List JsonPatchOperation) (h : lib.CreatePatch original current = .ok patches) :
    admission.PatchResponseFromRaw lib original current =
      { Patches := patches
        Allowed := true
        Result := none
        PatchType := if patches.length = 0 then none else some PatchType.JSONPatch } := by
  unfold admission.PatchResponseFromRaw
  rw [h]

/-- The patch response when the diff fails. -/
theorem PatchResponseFromRaw_error (lib : Libs) (original current : Bytes) (err : GoError)
    (h : lib.CreatePatch original current = .error err) :
    admission.PatchResponseFromRaw lib original current =
      admission.Errored StatusInternalServerError err := by
  unfold admission.PatchResponseFromRaw
  rw [h]

/-- An `Errored(500)` response is never a denial. -/
theorem Errored500_ne_Denied (err : GoError) (msg : String) :
    admission.Errored StatusInternalServerError err ≠ admission.Denied msg := by
  intro h
  have h2 : some StatusInternalServerError = some StatusForbidden :=
    congrArg (fun r => r.Result.map Status.Code) h
  exact absurd h2 (by decide)

/-- What a run on a Pod in `home` with a well-formed caller name returns, by
the answer of the client. -/
theorem Handle_wellFormed_cases (a : podAnnotator) (lib : Libs) (req : Request) (pod : Pod)
    (hdec : a.decoder.Decode req = .ok pod) (hns : pod.Namespace = "home")
    (hw : wellFormed req.UserInfo.Username) :
    (∃ err, a.Client.Get configMapKey = .error err ∧ err.IsNotFound = true ∧
        Handle a lib req =
          some { response := admission.Denied "ConfigMap not found", reads := [configMapKey] }) ∨
    (∃ err, a.Client.Get configMapKey = .error err ∧ err.IsNotFound = false ∧
        Handle a lib req =
          some { response := admission.Errored StatusInternalServerError err
                 reads := [configMapKey] }) ∨
    (∃ cm sa pod1, a.Client.Get configMapKey = .ok cm ∧
        (strings.Split req.UserInfo.Username ':')[3]? = some sa ∧
        pod1 = (match cm.Data sa with
                | some uid => withRunAsUser pod (strconv.ParseInt uid).1
                | none => pod) ∧
        (pod1 = pod ∨ ∃ v, pod1 = withRunAsUser pod v) ∧
        Handle a lib req =
          some { response := admission.PatchResponseFromRaw lib req.Object.Raw (lib.Marshal pod1).1
                 reads := [configMapKey]
                 marshaled := some pod1 }) := by
  obtain ⟨sa, hsa⟩ := fourth_piece _ hw.2
  rw [Handle_wellFormed a lib req pod sa hdec hns hw hsa]
  cases hget : a.Client.Get configMapKey with
  | error err =>
    cases hnf : err.IsNotFound with
    | true => left; exact ⟨err, rfl, hnf, by simp [hnf]⟩
    | false => right; left; exact ⟨err, rfl, hnf, by simp [hnf]⟩
  | ok cm =>
    right; right
    cases hd : cm.Data sa with
    | none => exact ⟨cm, sa, pod, rfl, hsa, by simp [hd], Or.inl rfl, by simp [hd]⟩
    | some uid =>
      exact ⟨cm, sa, withRunAsUser pod (strconv.ParseInt uid).1, rfl, hsa, by simp [hd],
        Or.inr ⟨_, rfl⟩, by simp [hd]⟩

/-- The run for the caller `system:serviceaccount:<ns>:<name>` on a Pod in
`home` when the mapping is fetched: the lookup is by `<name>`. -/
theorem Handle_serviceaccount (a : podAnnotator) (lib : Libs) (req : Request) (pod : Pod)
    (ns name : String) (cm : ConfigMap)
    (hdec : a.decoder.Decode req = .ok pod) (hns : pod.Namespace = "home")
    (hu : req.UserInfo.Username = "system:serviceaccount:" ++ ns ++ ":" ++ name)
    (hcns : ':' ∉ ns.data) (hcname : ':' ∉ name.data)
    (hget : a.Client.Get configMapKey = .ok cm) :
    Handle a lib req =
      some { response := admission.PatchResponseFromRaw lib req.Object.Raw
               (lib.Marshal (match cm.Data name with
                             | some uid => withRunAsUser pod (strconv.ParseInt uid).1
                             | none => pod)).1
             reads := [configMapKey]
             marshaled := some (match cm.Data name with
                                | some uid => withRunAsUser pod (strconv.ParseInt uid).1
                                | none => pod) } := by
  obtain ⟨hw, hsa⟩ := serviceaccount_name ns name hcns hcname
  rw [← hu] at hw hsa
  rw [Handle_wellFormed a lib req pod name hdec hns hw hsa, hget]

/-- The run for the caller `system:serviceaccount:<ns>:<name>` on a Pod in
`home` when the fetch of the mapping fails. -/
theorem Handle_serviceaccount_error (a : podAnnotator) (lib : Libs) (req : Request) (pod : Pod)
    (ns name : String) (err : GoError)
    (hdec : a.decoder.Decode req = .ok pod) (hns : pod.Namespace = "home")
    (hu : req.UserInfo.Username = "system:serviceaccount:" ++ ns ++ ":" ++ name)
    (hcns : ':' ∉ ns.data) (hcname : ':' ∉ name.data)
    (hget : a.Client.Get configMapKey = .error err) :
    Handle a lib req =
      if err.IsNotFound then
        some { response := admission.Denied "ConfigMap not found", reads := [configMapKey] }
      else
        some { response := admission.Errored StatusInternalServerError err
               reads := [configMapKey] } := by
  obtain ⟨hw, hsa⟩ := serviceaccount_name ns name hcns hcname
  rw [← hu] at hw hsa
  rw [Handle_wellFormed a lib req pod name hdec hns hw hsa, hget]

/-- Every run of the handler is one of its six ways out. -/
theorem Handle_classify (a : podAnnotator) (lib : Libs) (req : Request) :
    (∃ err, a.decoder.Decode req = .error err ∧
        Handle a lib req = some { response := admission.Errored StatusBadRequest err }) ∨
    (∃ pod, a.decoder.Decode req = .ok pod ∧ pod.Namespace ≠ "home" ∧
        Handle a lib req = some { response := admission.Allowed "Not the target namespace" }) ∨
    (∃ pod msg, a.decoder.Decode req = .ok pod ∧ pod.Namespace = "home" ∧
        ¬ wellFormed req.UserInfo.Username ∧
        Handle a lib req = some { response := admission.Denied msg }) ∨
    (∃ pod err, a.decoder.Decode req = .ok pod ∧ pod.Namespace = "home" ∧
        wellFormed req.UserInfo.Username ∧
        a.Client.Get configMapKey = .error err ∧ err.IsNotFound = true ∧
        Handle a lib req =
          some { response := admission.Denied "ConfigMap not found", reads := [configMapKey] }) ∨
    (∃ pod err, a.decoder.Decode req = .ok pod ∧ pod.Namespace = "home" ∧
        wellFormed req.UserInfo.Username ∧
        a.Client.Get configMapKey = .error err ∧ err.IsNotFound = false ∧
        Handle a lib req =
          some { response := admission.Errored StatusInternalServerError err
                 reads := [configMapKey] }) ∨
    (∃ pod cm sa pod1, a.decoder.Decode req = .ok pod ∧ pod.Namespace = "home" ∧
        wellFormed req.UserInfo.Username ∧
        a.Client.Get configMapKey = .ok cm ∧
        (strings.Split req.UserInfo.Username ':')[3]? = some sa ∧
        pod1 = (match cm.Data sa with
                | some uid => withRunAsUser pod (strconv.ParseInt uid).1
                | none => pod) ∧
        (pod1 = pod ∨ ∃ v, pod1 = withRunAsUser pod v) ∧
        Handle a lib req =
          some { response := admission.PatchResponseFromRaw lib req.Object.Raw (lib.Marshal pod1).1
                 reads := [configMapKey]
                 marshaled := some pod1 }) := by
  cases hdec : a.decoder.Decode req with
  | error err => exact Or.inl ⟨err, rfl, Handle_decode_error a lib req err hdec⟩
  | ok pod =>
    right
    by_cases hns : pod.Namespace = "home"
    · right
      by_cases hw : wellFormed req.UserInfo.Username
      · right
        rcases Handle_wellFormed_cases a lib req pod hdec hns hw with
          ⟨err, hget, hnf, hrun⟩ | ⟨err, hget, hnf, hrun⟩ | ⟨cm, sa, pod1, hget, hsa, hp1, hor, hrun⟩
        · exact Or.inl ⟨pod, err, rfl, hns, hw, hget, hnf, hrun⟩
        · exact Or.inr (Or.inl ⟨pod, err, rfl, hns, hw, hget, hnf, hrun⟩)
        · exact Or.inr (Or.inr ⟨pod, cm, sa, pod1, rfl, hns, hw, hget, hsa, hp1, hor, hrun⟩)
      · left
        cases hp : strings.HasPrefix req.UserInfo.Username "system:serviceaccount:" with
        | false => exact ⟨pod, _, rfl, hns, hw, Handle_no_prefix a lib req pod hdec hns hp⟩
        | true =>
          have hl : (strings.Split req.UserInfo.Username ':').length ≠ 4 := fun hl => hw ⟨hp, hl⟩
          exact ⟨pod, _, rfl, hns, hw, Handle_bad_parts a lib req pod hdec hns hp hl⟩
    · exact Or.inl ⟨pod, rfl, hns, Handle_other_namespace a lib req pod hdec hns⟩

/-! ## The claims -/

/-- C1: a Pod that decodes and is not in namespace `home` is allowed with no
patch, for every caller name and every answer the client could give; the
mapping is not read and no Pod is re-encoded. -/
theorem other_namespace_allowed_unpatched (a : podAnnotator) (lib : Libs) (req : Request)
    (pod : Pod) (hdec : a.decoder.Decode req = .ok pod) (hns : pod.Namespace ≠ "home") :
    ∃ out, Handle a lib req = some out ∧
      out.response = admission.Allowed "Not the target namespace" ∧
      out.response.Allowed = true ∧ out.response.Patches = [] ∧
      out.response.PatchType = none ∧ out.reads = [] ∧ out.marshaled = none :=
  ⟨_, Handle_other_namespace a lib req pod hdec hns, rfl, rfl, rfl, rfl, rfl, rfl⟩

/-- C1, run on the sample cluster: a Pod in `kube-system` submitted by `alice`
while the client fails. -/
theorem other_namespace_allowed_unpatched_witness :
    (sampleAnnotator (.ok (samplePod "kube-system")) (.error { Error := "timeout" })).decoder.Decode
        (sampleRequest "alice") = .ok (samplePod "kube-system") ∧
    (samplePod "kube-system").Namespace ≠ "home" ∧
    ∃ out, Handle (sampleAnnotator (.ok (samplePod "kube-system")) (.error { Error := "timeout" }))
        sampleLibs (sampleRequest "alice") = some out ∧
      out.response = admission.Allowed "Not the target namespace" ∧
      out.response.Allowed = true ∧ out.response.Patches = [] ∧
      out.response.PatchType = none ∧ out.reads = [] ∧ out.marshaled = none :=
  ⟨rfl, by decide,
    other_namespace_allowed_unpatched _ sampleLibs (sampleRequest "alice")
      (samplePod "kube-system") rfl (by decide)⟩

/-- C2 as stated fails: with the well-formed caller
`system:serviceaccount:home:backup-agent` and a mapping that is not found, the
Pod in `home` is denied, so denial is not equivalent to a malformed caller
name. -/
theorem denied_iff_malformed_counterexample :
    ∃ out, Handle (sampleAnnotator (.ok (samplePod "home"))
          (.error { Error := "not found", IsNotFound := true }))
        sampleLibs (sampleRequest "system:serviceaccount:home:backup-agent") = some out ∧
      ¬ ((∃ msg, out.response = admission.Denied msg) ↔
          ¬ wellFormed (sampleRequest "system:serviceaccount:home:backup-agent").UserInfo.Username) := by
  refine ⟨{ response := admission.Denied "ConfigMap not found", reads := [configMapKey] },
    by decide, ?_⟩
  intro h
  exact h.mp ⟨_, rfl⟩ (by decide)

/-- C2, amended: for a Pod that decodes and is in `home`, the caller name
passes the two tests exactly when it is `system:serviceaccount:<ns>:<name>`
without a colon in `<ns>` or `<name>`; a name that fails them is denied with
one of the two identity reasons, without the mapping being read, and these two
reasons are returned for no other name; the response is a denial exactly when
the name fails the tests or the fetch of the mapping fails with not-found.
The callers `alice` and `system:serviceaccount:home:a:b` are denied. -/
theorem denied_iff_malformed_or_not_found (a : podAnnotator) (lib : Libs) (req : Request)
    (pod : Pod) (hdec : a.decoder.Decode req = .ok pod) (hns : pod.Namespace = "home") :
    ∃ out, Handle a lib req = some out ∧
      (wellFormed req.UserInfo.Username ↔
        ∃ ns name : String, ':' ∉ ns.data ∧ ':' ∉ name.data ∧
          req.UserInfo.Username = "system:serviceaccount:" ++ ns ++ ":" ++ name) ∧
      (¬ wellFormed req.UserInfo.Username →
        (out.response = admission.Denied "Request is not from a ServiceAccount" ∨
          out.response = admission.Denied "Invalid ServiceAccount format in request") ∧
        out.reads = [] ∧ out.marshaled = none) ∧
      (wellFormed req.UserInfo.Username →
        out.response ≠ admission.Denied "Request is not from a ServiceAccount" ∧
        out.response ≠ admission.Denied "Invalid ServiceAccount format in request") ∧
      ((∃ msg, out.response = admission.Denied msg) ↔
        (¬ wellFormed req.UserInfo.Username ∨
          ∃ err, a.Client.Get configMapKey = .error err ∧ err.IsNotFound = true)) ∧
      (req.UserInfo.Username = "alice" ∨
          req.UserInfo.Username = "system:serviceaccount:home:a:b" →
        (∃ msg, out.response = admission.Denied msg) ∧ out.reads = []) := by
  have hparticular : req.UserInfo.Username = "alice" ∨
      req.UserInfo.Username = "system:serviceaccount:home:a:b" →
      ¬ wellFormed req.UserInfo.Username := by
    rintro (h | h) <;> rw [h] <;> decide
  by_cases hw : wellFormed req.UserInfo.Username
  · rcases Handle_wellFormed_cases a lib req pod hdec hns hw with
      ⟨err, hget, hnf, hrun⟩ | ⟨err, hget, hnf, hrun⟩ | ⟨cm, sa, pod1, hget, -, -, -, hrun⟩
    · refine ⟨_, hrun, strings.shape_iff _, fun h => absurd hw h, fun _ => ⟨by decide, by decide⟩,
        ⟨fun _ => Or.inr ⟨err, hget, hnf⟩, fun _ => ⟨_, rfl⟩⟩, fun h => absurd hw (hparticular h)⟩
    · refine ⟨_, hrun, strings.shape_iff _, fun h => absurd hw h,
        fun _ => ⟨Errored500_ne_Denied _ _, Errored500_ne_Denied _ _⟩,
        ⟨fun ⟨msg, h⟩ => absurd h (Errored500_ne_Denied _ _), ?_⟩,
        fun h => absurd hw (hparticular h)⟩
      rintro (h | ⟨err2, hget2, hnf2⟩)
      · exact absurd hw h
      · rw [hget] at hget2
        cases hget2
        rw [hnf] at hnf2
        exact absurd hnf2 (by decide)
    · refine ⟨_, hrun, strings.shape_iff _, fun h => absurd hw h,
        fun _ => ⟨PatchResponseFromRaw_ne_Denied _ _ _ _, PatchResponseFromRaw_ne_Denied _ _ _ _⟩,
        ⟨fun ⟨msg, h⟩ => absurd h (PatchResponseFromRaw_ne_Denied _ _ _ _), ?_⟩,
        fun h => absurd hw (hparticular h)⟩
      rintro (h | ⟨err2, hget2, -⟩)
      · exact absurd hw h
      · rw [hget] at hget2
        cases hget2
  · have hrun : ∃ out, Handle a lib req = some out ∧
        (out.response = admission.Denied "Request is not from a ServiceAccount" ∨
          out.response = admission.Denied "Invalid ServiceAccount format in request") ∧
        out.reads = [] ∧ out.marshaled = none := by
      cases hp : strings.HasPrefix req.UserInfo.Username "system:serviceaccount:" with
      | false => exact ⟨_, Handle_no_prefix a lib req pod hdec hns hp, Or.inl rfl, rfl, rfl⟩
      | true =>
        have hl : (strings.Split req.UserInfo.Username ':').length ≠ 4 := fun hl => hw ⟨hp, hl⟩
        exact ⟨_, Handle_bad_parts a lib req pod hdec hns hp hl, Or.inr rfl, rfl, rfl⟩
    obtain ⟨out, hout, hresp, hreads, hm⟩ := hrun
    refine ⟨out, hout, strings.shape_iff _, fun _ => ⟨hresp, hreads, hm⟩, fun h => absurd h hw,
      ⟨fun _ => Or.inl hw, fun _ => ?_⟩, fun _ => ⟨?_, hreads⟩⟩
    · rcases hresp with h | h <;> exact ⟨_, h⟩
    · rcases hresp with h | h <;> exact ⟨_, h⟩

/-- C2, amended, run on the sample cluster: `alice` submits a Pod in `home`. -/
theorem denied_iff_malformed_or_not_found_witness :
    (sampleAnnotator (.ok (samplePod "home")) (.ok sampleConfigMap)).decoder.Decode
        (sampleRequest "alice") = .ok (samplePod "home") ∧
    (samplePod "home").Namespace = "home" ∧
    ∃ out, Handle (sampleAnnotator (.ok (samplePod "home")) (.ok sampleConfigMap)) sampleLibs
        (sampleRequest "alice") = some out ∧
      (∃ msg, out.response = admission.Denied msg) ∧ out.reads = [] := by
  obtain ⟨out, hout, -, -, -, -, h⟩ :=
    denied_iff_malformed_or_not_found (sampleAnnotator (.ok (samplePod "home")) (.ok sampleConfigMap))
      sampleLibs (sampleRequest "alice") (samplePod "home") rfl rfl
  exact ⟨rfl, rfl, out, hout, h (Or.inl rfl)⟩

/-- C3 as stated fails: on the text cluster `backup-agent`, mapped to `"1000"`,
submits a Pod in `home` as a YAML body.  The Pod is re-encoded with `RunAsUser`
1000, but the diff does not read the YAML body and the response is
`Errored(500)`, not an allowed patch. -/
theorem mapped_decimal_allowed_counterexample :
    textAnnotator.decoder.Decode (textRequest "system:serviceaccount:home:backup-agent" "--- 0") =
      .ok (withRunAsUser (samplePod "home") 0) ∧
    textConfigMap.Data "backup-agent" = some "1000" ∧
    strconv.ParseInt "1000" = (1000, none) ∧
    ∃ out, Handle textAnnotator textLibs
        (textRequest "system:serviceaccount:home:backup-agent" "--- 0") = some out ∧
      out.marshaled = some (withRunAsUser (samplePod "home") 1000) ∧
      out.response =
        admission.Errored StatusInternalServerError { Error := "Invalid JSON Document" } ∧
      out.response.Allowed = false ∧ out.response.Patches = [] := by
  refine ⟨rfl, by decide, by decide,
    { response :=
        admission.Errored StatusInternalServerError { Error := "Invalid JSON Document" }
      reads := [configMapKey]
      marshaled := some (withRunAsUser (samplePod "home") 1000) },
    by decide, rfl, rfl, rfl, rfl⟩

/-- C3, amended: for a Pod in `home` submitted by
`system:serviceaccount:<ns>:<name>` (no colon in `<ns>`, `<name>`), when the
mapping holds under `<name>` a decimal numeral of an integer `V` of the `int64`
range, the handler re-encodes the Pod with a security context whose
`RunAsUser` is `V` and whose other fields are all unset, whatever security
context was submitted, and returns the patch response of the raw object
against that Pod.  That response is never a denial: it is allowed and carries
the operations of the diff when the diff succeeds, and it is `Errored(500)`
with the error of the diff, and no patch, when the diff fails. -/
theorem mapped_decimal_sets_RunAsUser (a : podAnnotator) (lib : Libs) (req : Request)
    (pod : Pod) (ns name : String) (cm : ConfigMap) (uid : String) (V : Int)
    (hdec : a.decoder.Decode req = .ok pod) (hns : pod.Namespace = "home")
    (hu : req.UserInfo.Username = "system:serviceaccount:" ++ ns ++ ":" ++ name)
    (hcns : ':' ∉ ns.data) (hcname : ':' ∉ name.data)
    (hget : a.Client.Get configMapKey = .ok cm) (hmap : cm.Data name = some uid)
    (hdecimal : strconv.IsDecimalOf uid V) (hlo : -(2 ^ 63) ≤ V) (hhi : V < 2 ^ 63) :
    ∃ out, Handle a lib req = some out ∧
      out.marshaled = some (withRunAsUser pod V) ∧
      (withRunAsUser pod V).Spec.SecurityContext =
        some { SELinuxOptions := none, WindowsOptions := none, RunAsUser := some V,
               RunAsGroup := none, RunAsNonRoot := none, SupplementalGroups := [],
               FSGroup := none, Sysctls := [], FSGroupChangePolicy := none,
               SeccompProfile := none } ∧
      out.response =
        admission.PatchResponseFromRaw lib req.Object.Raw (lib.Marshal (withRunAsUser pod V)).1 ∧
      (¬ ∃ msg, out.response = admission.Denied msg) ∧
      (∀ patches,
        lib.CreatePatch req.Object.Raw (lib.Marshal (withRunAsUser pod V)).1 = .ok patches →
        out.response.Allowed = true ∧ out.response.Result = none ∧
        out.response.Patches = patches) ∧
      (∀ err,
        lib.CreatePatch req.Object.Raw (lib.Marshal (withRunAsUser pod V)).1 = .error err →
        out.response = admission.Errored StatusInternalServerError err ∧
        out.response.Allowed = false ∧ out.response.Patches = []) ∧
      out.reads = [configMapKey] := by
  have hrun := Handle_serviceaccount a lib req pod ns name cm hdec hns hu hcns hcname hget
  have hV : (strconv.ParseInt uid).1 = V := by
    rw [strconv.ParseInt_of_decimal uid V hdecimal hlo hhi]
  simp only [hmap, hV] at hrun
  refine ⟨_, hrun, rfl, rfl, rfl, ?_, ?_, ?_, rfl⟩
  · rintro ⟨msg, h⟩
    exact PatchResponseFromRaw_ne_Denied _ _ _ _ h
  · intro patches hpatch
    have hresp := PatchResponseFromRaw_ok lib _ _ patches hpatch
    exact ⟨by rw [hresp], by rw [hresp], by rw [hresp]⟩
  · intro err herr
    have hresp := PatchResponseFromRaw_error lib _ _ err herr
    exact ⟨hresp, by rw [hresp]; rfl, by rw [hresp]; rfl⟩

/-- C3, amended, run on the sample cluster: the caller
`system:serviceaccount:home:backup-agent` with `backup-agent -> "1000"` gets
`RunAsUser` 1000 in place of the submitted security context, in an allowed
patch. -/
theorem mapped_decimal_sets_RunAsUser_witness :
    (sampleRequest "system:serviceaccount:home:backup-agent").UserInfo.Username =
        "system:serviceaccount:" ++ "home" ++ ":" ++ "backup-agent" ∧
    sampleConfigMap.Data "backup-agent" = some "1000" ∧
    strconv.IsDecimalOf "1000" 1000 ∧
    (samplePod "home").Spec.SecurityContext =
        some { RunAsUser := some 0, RunAsNonRoot := some false } ∧
    ∃ out, Handle (sampleAnnotator (.ok (samplePod "home")) (.ok sampleConfigMap)) sampleLibs
        (sampleRequest "system:serviceaccount:home:backup-agent") = some out ∧
      out.marshaled = some (withRunAsUser (samplePod "home") 1000) ∧
      (withRunAsUser (samplePod "home") 1000).Spec.SecurityContext =
        some { RunAsUser := some 1000 } ∧
      out.response.Allowed = true ∧
      out.response.Patches = [{ Operation := "replace", Path := "/spec", Value := "" }] := by
  have hd : strconv.IsDecimalOf "1000" 1000 :=
    ⟨[1, 0, 0, 0], by decide, by decide, Or.inl ⟨by decide, by decide⟩⟩
  obtain ⟨out, hout, hm, hsc, -, -, hok, -, -⟩ :=
    mapped_decimal_sets_RunAsUser (sampleAnnotator (.ok (samplePod "home")) (.ok sampleConfigMap))
      sampleLibs (sampleRequest "system:serviceaccount:home:backup-agent") (samplePod "home")
      "home" "backup-agent" sampleConfigMap "1000" 1000
      rfl rfl (by decide) (by decide) (by decide) rfl (by decide) hd (by decide) (by decide)
  obtain ⟨hal, -, hp⟩ := hok [{ Operation := "replace", Path := "/spec", Value := "" }] rfl
  exact ⟨by decide, by decide, hd, rfl, out, hout, hm, hsc, hal, hp⟩

/-- C4 as stated fails, twice.  On the sample cluster the account `huge` is
mapped to `"9223372036854775808"`, a decimal number just above the `int64`
range, which `ParseInt` rejects; the Pod is re-encoded with `RunAsUser`
9223372036854775807, not 0.  On the text cluster the account `blank` is mapped
to the empty string and submits a YAML body; the Pod is re-encoded with
`RunAsUser` 0, but the response is `Errored(500)`, not an allowed patch. -/
theorem unparsable_uid_zero_counterexample :
    (sampleConfigMap.Data "huge" = some "9223372036854775808" ∧
      (strconv.ParseInt "9223372036854775808").2 = some strconv.NumErr.ErrRange ∧
      ∃ out, Handle (sampleAnnotator (.ok (samplePod "home")) (.ok sampleConfigMap)) sampleLibs
          (sampleRequest "system:serviceaccount:home:huge") = some out ∧
        out.response.Allowed = true ∧
        out.marshaled = some (withRunAsUser (samplePod "home") 9223372036854775807) ∧
        out.marshaled ≠ some (withRunAsUser (samplePod "home") 0)) ∧
    (textConfigMap.Data "blank" = some "" ∧
      (strconv.ParseInt "").2 = some strconv.NumErr.ErrSyntax ∧
      ∃ out, Handle textAnnotator textLibs
          (textRequest "system:serviceaccount:home:blank" "--- 0") = some out ∧
        out.marshaled = some (withRunAsUser (samplePod "home") 0) ∧
        out.response =
          admission.Errored StatusInternalServerError { Error := "Invalid JSON Document" } ∧
        out.response.Allowed = false) := by
  refine ⟨⟨by decide, by decide,
    { response := admission.PatchResponseFromRaw sampleLibs [1]
        (sampleMarshal (withRunAsUser (samplePod "home") 9223372036854775807)).1
      reads := [configMapKey]
      marshaled := some (withRunAsUser (samplePod "home") 9223372036854775807) },
    by decide, by decide, rfl, by decide⟩,
    by decide, by decide,
    { response :=
        admission.Errored StatusInternalServerError { Error := "Invalid JSON Document" }
      reads := [configMapKey]
      marshaled := some (withRunAsUser (samplePod "home") 0) },
    by decide, rfl, rfl, rfl⟩

/-- C4, amended: for a request that reaches the lookup and whose account name
is mapped to a value that `ParseInt` rejects with error kind `e`, the Pod is
re-encoded with `RunAsUser` set to the value `ParseInt` returns next to that
error, and the error of the parse is reported nowhere: the response is the
patch response of the raw object against that Pod, never a denial, allowed
with the operations of the diff when the diff succeeds and `Errored(500)` with
the error of the diff when the diff fails.  The value is 0 for a syntax error,
which is what the empty string gives and what a byte that is not a digit gives
when it is met before the digits leave the `uint64` range; every decimal
numeral of an integer outside the `int64` range gives a range error, and then
the value is `2^63 - 1`, or `-2^63` for a negative numeral. -/
theorem unparsable_uid_sets_error_value (a : podAnnotator) (lib : Libs) (req : Request)
    (pod : Pod) (ns name : String) (cm : ConfigMap) (uid : String) (e : strconv.NumErr)
    (hdec : a.decoder.Decode req = .ok pod) (hns : pod.Namespace = "home")
    (hu : req.UserInfo.Username = "system:serviceaccount:" ++ ns ++ ":" ++ name)
    (hcns : ':' ∉ ns.data) (hcname : ':' ∉ name.data)
    (hget : a.Client.Get configMapKey = .ok cm) (hmap : cm.Data name = some uid)
    (hbad : (strconv.ParseInt uid).2 = some e) :
    ∃ out, Handle a lib req = some out ∧
      out.marshaled = some (withRunAsUser pod (strconv.errorValue uid e)) ∧
      out.response = admission.PatchResponseFromRaw lib req.Object.Raw
        (lib.Marshal (withRunAsUser pod (strconv.errorValue uid e))).1 ∧
      (¬ ∃ msg, out.response = admission.Denied msg) ∧
      (∀ patches,
        lib.CreatePatch req.Object.Raw
          (lib.Marshal (withRunAsUser pod (strconv.errorValue uid e))).1 = .ok patches →
        out.response.Allowed = true ∧ out.response.Result = none ∧
        out.response.Patches = patches) ∧
      (∀ err,
        lib.CreatePatch req.Object.Raw
          (lib.Marshal (withRunAsUser pod (strconv.errorValue uid e))).1 = .error err →
        out.response = admission.Errored StatusInternalServerError err) ∧
      (e = strconv.NumErr.ErrSyntax → strconv.errorValue uid e = 0) ∧
      (uid = "" → e = strconv.NumErr.ErrSyntax) ∧
      (∀ V, strconv.IsDecimalOf uid V →
        e = strconv.NumErr.ErrRange ∧ (V < -(2 ^ 63) ∨ 2 ^ 63 ≤ V) ∧
        strconv.errorValue uid e = if V < 0 then -(2 ^ 63) else 2 ^ 63 - 1) ∧
      (∀ (pre : List Char) (ds : List Nat) (c : Char) (rest : List Char),
        uid.data = pre ++ (ds.map strconv.digitChar ++ c :: rest) →
        (pre = [] ∨ pre = ['+'] ∨ pre = ['-']) →
        (∀ d ∈ ds, d < 10) → strconv.digitsValue ds < 2 ^ 64 →
        ¬ (0x30 ≤ c.toNat ∧ c.toNat ≤ 0x39) →
        (pre = [] → ds = [] → c ≠ '+' ∧ c ≠ '-') →
        e = strconv.NumErr.ErrSyntax) := by
  have hrun := Handle_serviceaccount a lib req pod ns name cm hdec hns hu hcns hcname hget
  have hV := strconv.ParseInt_error_value uid e hbad
  simp only [hmap, hV] at hrun
  refine ⟨_, hrun, rfl, rfl, ?_, ?_, ?_, ?_, ?_, ?_, ?_⟩
  · rintro ⟨msg, h⟩
    exact PatchResponseFromRaw_ne_Denied _ _ _ _ h
  · intro patches hpatch
    have hresp := PatchResponseFromRaw_ok lib _ _ patches hpatch
    exact ⟨by rw [hresp], by rw [hresp], by rw [hresp]⟩
  · intro err herr
    exact PatchResponseFromRaw_error lib _ _ err herr
  · rintro rfl
    rfl
  · rintro rfl
    have h0 : (strconv.ParseInt "").2 = some strconv.NumErr.ErrSyntax := by decide
    rw [h0] at hbad
    exact (Option.some.inj hbad).symm
  · intro V hdV
    by_cases hin : -(2 ^ 63) ≤ V ∧ V < 2 ^ 63
    · rw [strconv.ParseInt_of_decimal uid V hdV hin.1 hin.2] at hbad
      exact absurd hbad (by simp)
    · have hout : V < -(2 ^ 63) ∨ 2 ^ 63 ≤ V := by omega
      have hp := strconv.ParseInt_of_decimal_overflow uid V hdV hout
      rw [hp] at hbad hV
      have he : e = strconv.NumErr.ErrRange := (Option.some.inj hbad).symm
      exact ⟨he, hout, hV.symm⟩
  · intro pre ds c rest hs hpre hds hfit hc hsign
    rw [strconv.ParseInt_nondigit uid pre ds c rest hs hpre hds hfit hc hsign] at hbad
    exact (Option.some.inj hbad).symm

/-- C4, amended, run on the sample cluster: the account `blank` is mapped to
the empty string and gets `RunAsUser` 0 in an allowed patch. -/
theorem unparsable_uid_sets_error_value_witness :
    sampleConfigMap.Data "blank" = some "" ∧
    (strconv.ParseInt "").2 = some strconv.NumErr.ErrSyntax ∧
    ∃ out, Handle (sampleAnnotator (.ok (samplePod "home")) (.ok sampleConfigMap)) sampleLibs
        (sampleRequest "system:serviceaccount:home:blank") = some out ∧
      out.marshaled = some (withRunAsUser (samplePod "home") 0) ∧
      out.response.Allowed = true ∧ out.response.Result = none := by
  obtain ⟨out, hout, hm, -, -, hok, -⟩ :=
    unparsable_uid_sets_error_value
      (sampleAnnotator (.ok (samplePod "home")) (.ok sampleConfigMap))
      sampleLibs (sampleRequest "system:serviceaccount:home:blank") (samplePod "home")
      "home" "blank" sampleConfigMap "" strconv.NumErr.ErrSyntax
      rfl rfl (by decide) (by decide) (by decide) rfl (by decide) (by decide)
  obtain ⟨hal, hres, -⟩ := hok [{ Operation := "replace", Path := "/spec", Value := "" }] rfl
  exact ⟨by decide, by decide, out, hout, hm, hal, hres⟩

/-- C5 as stated fails: on the text cluster the account `nobody`, absent from
the mapping, submits a Pod in `home` as a YAML body.  The Pod is re-encoded
unchanged, but the diff does not read the YAML body and the response is
`Errored(500)`. -/
theorem unmapped_account_allowed_counterexample :
    textAnnotator.decoder.Decode (textRequest "system:serviceaccount:home:nobody" "--- 0") =
      .ok (withRunAsUser (samplePod "home") 0) ∧
    textConfigMap.Data "nobody" = none ∧
    ∃ out, Handle textAnnotator textLibs
        (textRequest "system:serviceaccount:home:nobody" "--- 0") = some out ∧
      out.marshaled = some (withRunAsUser (samplePod "home") 0) ∧
      out.response =
        admission.Errored StatusInternalServerError { Error := "Invalid JSON Document" } ∧
      out.response.Allowed = false := by
  refine ⟨rfl, by decide,
    { response :=
        admission.Errored StatusInternalServerError { Error := "Invalid JSON Document" }
      reads := [configMapKey]
      marshaled := some (withRunAsUser (samplePod "home") 0) },
    by decide, rfl, rfl, rfl⟩

/-- C5, amended: for a Pod in `home` submitted by
`system:serviceaccount:<ns>:<name>` when the mapping is fetched and has no key
`<name>`, the Pod that is re-encoded is the decoded Pod itself, so its
security context is the submitted one, and the response is the patch response
of the raw object against it.  That response is never a denial: it is allowed
when the diff succeeds, and `Errored(500)` with the error of the diff when the
diff fails. -/
theorem unmapped_account_pod_unchanged (a : podAnnotator) (lib : Libs) (req : Request)
    (pod : Pod) (ns name : String) (cm : ConfigMap)
    (hdec : a.decoder.Decode req = .ok pod) (hns : pod.Namespace = "home")
    (hu : req.UserInfo.Username = "system:serviceaccount:" ++ ns ++ ":" ++ name)
    (hcns : ':' ∉ ns.data) (hcname : ':' ∉ name.data)
    (hget : a.Client.Get configMapKey = .ok cm) (hmap : cm.Data name = none) :
    ∃ out pod1, Handle a lib req = some out ∧
      out.marshaled = some pod1 ∧
      pod1.Spec.SecurityContext = pod.Spec.SecurityContext ∧ pod1 = pod ∧
      out.response = admission.PatchResponseFromRaw lib req.Object.Raw (lib.Marshal pod1).1 ∧
      (¬ ∃ msg, out.response = admission.Denied msg) ∧
      (∀ patches, lib.CreatePatch req.Object.Raw (lib.Marshal pod).1 = .ok patches →
        out.response.Allowed = true ∧ out.response.Result = none ∧
        out.response.Patches = patches ∧
        ¬ ∃ code err, out.response = admission.Errored code err) ∧
      (∀ err, lib.CreatePatch req.Object.Raw (lib.Marshal pod).1 = .error err →
        out.response = admission.Errored StatusInternalServerError err) := by
  have hrun := Handle_serviceaccount a lib req pod ns name cm hdec hns hu hcns hcname hget
  simp only [hmap] at hrun
  refine ⟨_, pod, hrun, rfl, rfl, rfl, rfl, ?_, ?_, ?_⟩
  · rintro ⟨msg, h⟩
    exact PatchResponseFromRaw_ne_Denied _ _ _ _ h
  · intro patches hpatch
    have hresp := PatchResponseFromRaw_ok lib _ _ patches hpatch
    refine ⟨by rw [hresp], by rw [hresp], by rw [hresp], ?_⟩
    rintro ⟨code, err, h⟩
    have h2 : (admission.PatchResponseFromRaw lib req.Object.Raw (lib.Marshal pod).1).Allowed =
        false := congrArg Response.Allowed h
    rw [hresp] at h2
    exact Bool.noConfusion h2
  · intro err herr
    exact PatchResponseFromRaw_error lib _ _ err herr

/-- C5, amended, run on the sample cluster: the account `nobody` is not in the
mapping, and the Pod keeps the security context it was submitted with, in an
allowed response. -/
theorem unmapped_account_pod_unchanged_witness :
    sampleConfigMap.Data "nobody" = none ∧
    ∃ out pod1, Handle (sampleAnnotator (.ok (samplePod "home")) (.ok sampleConfigMap))
        sampleLibs (sampleRequest "system:serviceaccount:home:nobody") = some out ∧
      out.marshaled = some pod1 ∧
      pod1.Spec.SecurityContext = some { RunAsUser := some 0, RunAsNonRoot := some false } ∧
      out.response.Allowed = true := by
  obtain ⟨out, pod1, hout, hm, hsc, -, -, -, hok, -⟩ :=
    unmapped_account_pod_unchanged
      (sampleAnnotator (.ok (samplePod "home")) (.ok sampleConfigMap))
      sampleLibs (sampleRequest "system:serviceaccount:home:nobody") (samplePod "home")
      "home" "nobody" sampleConfigMap
      rfl rfl (by decide) (by decide) (by decide) rfl (by decide)
  obtain ⟨hal, -⟩ := hok [{ Operation := "replace", Path := "/spec", Value := "" }] rfl
  exact ⟨by decide, out, pod1, hout, hm, hsc, hal⟩

/-- C6: for a Pod in `home` and a caller name that passes both tests, when the
fetch of the mapping fails with a not-found error the response is the denial
`ConfigMap not found`, whose reason contains `not found`; nothing is patched
or re-encoded. -/
theorem mapping_not_found_denied (a : podAnnotator) (lib : Libs) (req : Request) (pod : Pod)
    (err : GoError) (hdec : a.decoder.Decode req = .ok pod) (hns : pod.Namespace = "home")
    (hw : wellFormed req.UserInfo.Username)
    (hget : a.Client.Get configMapKey = .error err) (hnf : err.IsNotFound = true) :
    ∃ out st, Handle a lib req = some out ∧
      out.response = admission.Denied "ConfigMap not found" ∧
      out.response.Allowed = false ∧ out.response.Result = some st ∧
      st.Code = StatusForbidden ∧ "not found".data <:+: st.Message.data ∧
      out.response.Patches = [] ∧ out.marshaled = none := by
  obtain ⟨sa, hsa⟩ := fourth_piece _ hw.2
  have hrun := Handle_wellFormed a lib req pod sa hdec hns hw hsa
  rw [hget] at hrun
  simp only [hnf, if_true] at hrun
  exact ⟨_, _, hrun, rfl, rfl, rfl, rfl, ⟨"ConfigMap ".data, [], by decide⟩, rfl, rfl⟩

/-- C6, run on the sample cluster: the mapping is absent. -/
theorem mapping_not_found_denied_witness :
    wellFormed (sampleRequest "system:serviceaccount:home:backup-agent").UserInfo.Username ∧
    ∃ out st, Handle (sampleAnnotator (.ok (samplePod "home"))
          (.error { Error := "configmaps uid-configmap not found", IsNotFound := true }))
        sampleLibs (sampleRequest "system:serviceaccount:home:backup-agent") = some out ∧
      out.response.Allowed = false ∧ out.response.Result = some st ∧
      st.Code = 403 ∧ st.Message = "ConfigMap not found" := by
  obtain ⟨out, st, hout, hresp, hal, hres, hcode, -, -, -⟩ :=
    mapping_not_found_denied
      (sampleAnnotator (.ok (samplePod "home"))
        (.error { Error := "configmaps uid-configmap not found", IsNotFound := true }))
      sampleLibs (sampleRequest "system:serviceaccount:home:backup-agent") (samplePod "home")
      { Error := "configmaps uid-configmap not found", IsNotFound := true }
      rfl rfl (by decide) rfl rfl
  refine ⟨by decide, out, st, hout, hal, hres, hcode, ?_⟩
  rw [hresp] at hres
  exact (congrArg Status.Message (Option.some.inj hres)).symm

/-- C7: for a Pod in `home` and a caller name that passes both tests, when the
fetch of the mapping fails with an error that is not a not-found error the
response is `Errored(500)` with the text of that error: it is not allowed, it
is not a denial, and it carries no patch. -/
theorem mapping_fetch_error_500 (a : podAnnotator) (lib : Libs) (req : Request) (pod : Pod)
    (err : GoError) (hdec : a.decoder.Decode req = .ok pod) (hns : pod.Namespace = "home")
    (hw : wellFormed req.UserInfo.Username)
    (hget : a.Client.Get configMapKey = .error err) (hnf : err.IsNotFound = false) :
    ∃ out, Handle a lib req = some out ∧
      out.response = admission.Errored StatusInternalServerError err ∧
      out.response.Allowed = false ∧
      out.response.Result = some { Code := 500, Message := err.Error } ∧
      (¬ ∃ msg, out.response = admission.Denied msg) ∧
      (¬ ∃ msg, out.response = admission.Allowed msg) ∧
      out.response.Patches = [] ∧ out.marshaled = none := by
  obtain ⟨sa, hsa⟩ := fourth_piece _ hw.2
  have hrun := Handle_wellFormed a lib req pod sa hdec hns hw hsa
  rw [hget] at hrun
  simp only [hnf, Bool.false_eq_true, if_false] at hrun
  refine ⟨_, hrun, rfl, rfl, rfl, ?_, ?_, rfl, rfl⟩
  · rintro ⟨msg, h⟩
    exact Errored500_ne_Denied _ _ h
  · rintro ⟨msg, h⟩
    have h2 : false = true := congrArg Response.Allowed h
    exact Bool.noConfusion h2

/-- C7, run on the sample cluster: the fetch of the mapping times out. -/
theorem mapping_fetch_error_500_witness :
    wellFormed (sampleRequest "system:serviceaccount:home:backup-agent").UserInfo.Username ∧
    ∃ out, Handle (sampleAnnotator (.ok (samplePod "home")) (.error { Error := "timeout" }))
        sampleLibs (sampleRequest "system:serviceaccount:home:backup-agent") = some out ∧
      out.response.Allowed = false ∧
      out.response.Result = some { Code := 500, Message := "timeout" } := by
  obtain ⟨out, hout, -, hal, hres, -⟩ :=
    mapping_fetch_error_500
      (sampleAnnotator (.ok (samplePod "home")) (.error { Error := "timeout" }))
      sampleLibs (sampleRequest "system:serviceaccount:home:backup-agent") (samplePod "home")
      { Error := "timeout" } rfl rfl (by decide) rfl rfl
  exact ⟨by decide, out, hout, hal, hres⟩

/-- C8: every run returns a response; when the Pod does not decode it is
`Errored(400)` with the decode error, for every caller name and every client,
without a read of the mapping; and a response with status 400 is returned
only when the Pod does not decode. -/
theorem decode_failure_errored_400 (a : podAnnotator) (lib : Libs) (req : Request) :
    ∃ out, Handle a lib req = some out ∧
      (∀ err, a.decoder.Decode req = .error err →
        out.response = admission.Errored StatusBadRequest err ∧
        out.response.Allowed = false ∧
        out.response.Result = some { Code := 400, Message := err.Error } ∧
        out.reads = [] ∧ out.marshaled = none) ∧
      (out.response.Result.map Status.Code = some StatusBadRequest →
        ∃ err, a.decoder.Decode req = .error err) := by
  rcases Handle_classify a lib req with
    ⟨err, hdec, hrun⟩ | ⟨pod, hdec, -, hrun⟩ | ⟨pod, msg, hdec, -, -, hrun⟩ |
    ⟨pod, err, hdec, -, -, -, -, hrun⟩ | ⟨pod, err, hdec, -, -, -, -, hrun⟩ |
    ⟨pod, cm, sa, pod1, hdec, -, -, -, -, -, -, hrun⟩
  · refine ⟨_, hrun, ?_, fun _ => ⟨err, hdec⟩⟩
    intro err2 h2
    rw [hdec] at h2
    cases h2
    exact ⟨rfl, rfl, rfl, rfl, rfl⟩
  · refine ⟨_, hrun, fun err2 h2 => absurd (hdec.symm.trans h2) (by simp), fun h => ?_⟩
    have h3 : StatusOK = StatusBadRequest := Option.some.inj h
    exact absurd h3 (by decide)
  · refine ⟨_, hrun, fun err2 h2 => absurd (hdec.symm.trans h2) (by simp), fun h => ?_⟩
    have h3 : StatusForbidden = StatusBadRequest := Option.some.inj h
    exact absurd h3 (by decide)
  · refine ⟨_, hrun, fun err2 h2 => absurd (hdec.symm.trans h2) (by simp), fun h => ?_⟩
    have h3 : StatusForbidden = StatusBadRequest := Option.some.inj h
    exact absurd h3 (by decide)
  · refine ⟨_, hrun, fun err2 h2 => absurd (hdec.symm.trans h2) (by simp), fun h => ?_⟩
    have h3 : StatusInternalServerError = StatusBadRequest := Option.some.inj h
    exact absurd h3 (by decide)
  · refine ⟨_, hrun, fun err2 h2 => absurd (hdec.symm.trans h2) (by simp), fun h => ?_⟩
    rcases PatchResponseFromRaw_code lib req.Object.Raw (lib.Marshal pod1).1 with hc | hc
    · have h3 : some StatusInternalServerError = some StatusBadRequest := hc.symm.trans h
      exact absurd (Option.some.inj h3) (by decide)
    · have h3 : (none : Option Status).map Status.Code = some StatusBadRequest := by
        rw [← hc]
        exact h
      exact absurd h3 (by simp)

/-- C8, run on the sample cluster: the body does not decode; the caller is a
well-formed service account and the mapping is present. -/
theorem decode_failure_errored_400_witness :
    ∃ out, Handle (sampleAnnotator (.error { Error := "there is no content to decode" })
          (.ok sampleConfigMap)) sampleLibs
        (sampleRequest "system:serviceaccount:home:backup-agent") = some out ∧
      out.response.Allowed = false ∧
      out.response.Result = some { Code := 400, Message := "there is no content to decode" } ∧
      out.reads = [] := by
  obtain ⟨out, hout, h, -⟩ :=
    decode_failure_errored_400
      (sampleAnnotator (.error { Error := "there is no content to decode" }) (.ok sampleConfigMap))
      sampleLibs (sampleRequest "system:serviceaccount:home:backup-agent")
  obtain ⟨-, hal, hres, hreads, -⟩ := h { Error := "there is no content to decode" } rfl
  exact ⟨out, hout, hal, hres, hreads⟩

/-- C9 as stated fails: on the text cluster `max-agent`, mapped to
`"9223372036854775807"`, submits a Pod in `home`.  The run returns an allowed
patch, whose value has gone through `float64` and reads 9223372036854775808;
the body with that patch applied does not decode, and submitting it again
gives `Errored(400)`, not an allowed response with an empty patch. -/
theorem resubmission_not_idempotent_counterexample :
    ∃ out1 out2,
      Handle textAnnotator textLibs (textRequest "system:serviceaccount:home:max-agent" "0") =
        some out1 ∧
      out1.marshaled = some (withRunAsUser (samplePod "home") 9223372036854775807) ∧
      out1.response.Allowed = true ∧
      out1.response.Patches =
        [{ Operation := "replace", Path := "/spec/securityContext/runAsUser"
           Value := "9223372036854775808" }] ∧
      Handle textAnnotator textLibs
          { UserInfo := { Username := "system:serviceaccount:home:max-agent" }
            Object := { Raw := applyPatch (textBytes "0".data) out1.response.Patches } } =
        some out2 ∧
      out2.response = admission.Errored StatusBadRequest
        { Error := "json: cannot unmarshal number into Go value of type int64" } ∧
      out2.response.Allowed = false ∧ out2.marshaled = none := by
  refine ⟨{ response :=
              { Patches := [{ Operation := "replace", Path := "/spec/securityContext/runAsUser"
                              Value := "9223372036854775808" }]
                Allowed := true
                PatchType := some PatchType.JSONPatch }
            reads := [configMapKey]
            marshaled := some (withRunAsUser (samplePod "home") 9223372036854775807) },
    { response := admission.Errored StatusBadRequest
        { Error := "json: cannot unmarshal number into Go value of type int64" } },
    by decide, rfl, rfl, rfl, by decide, rfl, rfl, rfl⟩

/-- C9, amended: idempotence of the mutation on the decoded Pod.  When a run
re-encodes the Pod `pod1` (it reached the patch step), a second request by the
same caller to the same annotator whose object decodes to `pod1` re-encodes
`pod1` again: the mutation applied to its own result changes nothing.  The
second response is the patch response of the resubmitted object against the
encoding of `pod1`: never a denial, allowed with no patch when that diff is
empty, and `Errored(500)` when that diff fails. -/
theorem handle_idempotent (a : podAnnotator) (lib : Libs) (req req2 : Request) (out : Outcome)
    (pod1 : Pod) (h1 : Handle a lib req = some out) (hm : out.marshaled = some pod1)
    (hu : req2.UserInfo.Username = req.UserInfo.Username)
    (hdec2 : a.decoder.Decode req2 = .ok pod1) :
    ∃ out2, Handle a lib req2 = some out2 ∧
      out2.marshaled = some pod1 ∧
      out2.response =
        admission.PatchResponseFromRaw lib req2.Object.Raw (lib.Marshal pod1).1 ∧
      (¬ ∃ msg, out2.response = admission.Denied msg) ∧
      (lib.CreatePatch req2.Object.Raw (lib.Marshal pod1).1 = .ok [] →
        out2.response =
          { Patches := [], Allowed := true, Result := none, PatchType := none }) ∧
      (∀ err, lib.CreatePatch req2.Object.Raw (lib.Marshal pod1).1 = .error err →
        out2.response = admission.Errored StatusInternalServerError err) := by
  rcases Handle_classify a lib req with
    ⟨err, -, hrun⟩ | ⟨pod, -, -, hrun⟩ | ⟨pod, msg, -, -, -, hrun⟩ |
    ⟨pod, err, -, -, -, -, -, hrun⟩ | ⟨pod, err, -, -, -, -, -, hrun⟩ |
    ⟨pod, cm, sa, p, hdec, hns, hw, hget, hsa, hp, -, hrun⟩
  · rw [hrun] at h1; cases h1; cases hm
  · rw [hrun] at h1; cases h1; cases hm
  · rw [hrun] at h1; cases h1; cases hm
  · rw [hrun] at h1; cases h1; cases hm
  · rw [hrun] at h1; cases h1; cases hm
  · rw [hrun] at h1
    cases h1
    have hpp : p = pod1 := Option.some.inj hm
    subst hpp
    have hns2 : p.Namespace = "home" := by
      rw [hp]
      cases cm.Data sa with
      | none => exact hns
      | some uid => exact hns
    rw [← hu] at hw hsa
    have hrun2 := Handle_wellFormed a lib req2 p sa hdec2 hns2 hw hsa
    rw [hget] at hrun2
    have hfix : (match cm.Data sa with
        | some uid => withRunAsUser p (strconv.ParseInt uid).1
        | none => p) = p := by
      cases hd : cm.Data sa with
      | none => rfl
      | some uid =>
        rw [hd] at hp
        rw [hp]
        rfl
    simp only [hfix] at hrun2
    refine ⟨_, hrun2, rfl, rfl, ?_, ?_, ?_⟩
    · rintro ⟨msg, h⟩
      exact PatchResponseFromRaw_ne_Denied _ _ _ _ h
    · intro hdiff
      exact PatchResponseFromRaw_ok lib _ _ [] hdiff
    · intro err herr
      exact PatchResponseFromRaw_error lib _ _ err herr

/-- C9, amended, run on the sample cluster: the Pod patched for `backup-agent`
is submitted again by `backup-agent`, and comes back with no patch. -/
theorem handle_idempotent_witness :
    Handle resubmitAnnotator sampleLibs
        (sampleRequest "system:serviceaccount:home:backup-agent") =
      some { response := { Patches := [{ Operation := "replace", Path := "/spec", Value := "" }]
                           Allowed := true
                           PatchType := some PatchType.JSONPatch }
             reads := [configMapKey]
             marshaled := some (withRunAsUser (samplePod "home") 1000) } ∧
    ∃ out2, Handle resubmitAnnotator sampleLibs
        { UserInfo := { Username := "system:serviceaccount:home:backup-agent" }
          Object := { Raw := (sampleMarshal (withRunAsUser (samplePod "home") 1000)).1 } } =
          some out2 ∧
      out2.marshaled = some (withRunAsUser (samplePod "home") 1000) ∧
      out2.response = { Patches := [], Allowed := true, Result := none, PatchType := none } := by
  have h1 : Handle resubmitAnnotator sampleLibs
      (sampleRequest "system:serviceaccount:home:backup-agent") =
      some { response := { Patches := [{ Operation := "replace", Path := "/spec", Value := "" }]
                           Allowed := true
                           PatchType := some PatchType.JSONPatch }
             reads := [configMapKey]
             marshaled := some (withRunAsUser (samplePod "home") 1000) } := by decide
  obtain ⟨out2, hout2, hm2, -, -, hresp2, -⟩ :=
    handle_idempotent resubmitAnnotator sampleLibs
      (sampleRequest "system:serviceaccount:home:backup-agent")
      { UserInfo := { Username := "system:serviceaccount:home:backup-agent" }
        Object := { Raw := (sampleMarshal (withRunAsUser (samplePod "home") 1000)).1 } }
      _ (withRunAsUser (samplePod "home") 1000) h1 rfl rfl rfl
  exact ⟨h1, out2, hout2, hm2, hresp2 rfl⟩

/-- C10: every run returns a response, and no partial mutation survives an
error path.  A response that is not allowed, in particular every denial and
every error, carries no patch.  A response that carries a patch is the diff
against a re-encoded Pod that is the decoded Pod, or the decoded Pod with its
security context replaced by one holding `RunAsUser` alone.  A Pod is
re-encoded, mutated or not, only after the decode, the namespace test, the two
tests of the caller name and the fetch of the mapping have all passed. -/
theorem no_partial_mutation (a : podAnnotator) (lib : Libs) (req : Request) :
    ∃ out, Handle a lib req = some out ∧
      (out.response.Allowed = false →
        out.response.Patches = [] ∧ out.response.PatchType = none) ∧
      ((∃ msg, out.response = admission.Denied msg) ∨
          (∃ code err, out.response = admission.Errored code err) →
        out.response.Patches = [] ∧ out.response.PatchType = none) ∧
      (out.response.Patches ≠ [] →
        ∃ pod pod1, a.decoder.Decode req = .ok pod ∧ out.marshaled = some pod1 ∧
          out.response =
            admission.PatchResponseFromRaw lib req.Object.Raw (lib.Marshal pod1).1 ∧
          (pod1 = pod ∨
            ∃ v, pod1 = withRunAsUser pod v ∧
              pod1.Spec.SecurityContext = some { RunAsUser := some v })) ∧
      (∀ pod1, out.marshaled = some pod1 →
        ∃ pod cm, a.decoder.Decode req = .ok pod ∧ pod.Namespace = "home" ∧
          wellFormed req.UserInfo.Username ∧ a.Client.Get configMapKey = .ok cm ∧
          (pod1 = pod ∨
            ∃ v, pod1 = withRunAsUser pod v ∧
              pod1.Spec.SecurityContext = some { RunAsUser := some v })) := by
  have hfix : ∀ r : Response, ((∃ msg, r = admission.Denied msg) ∨
      (∃ code err, r = admission.Errored code err)) → r.Patches = [] ∧ r.PatchType = none := by
    rintro r (⟨msg, rfl⟩ | ⟨code, err, rfl⟩) <;> exact ⟨rfl, rfl⟩
  rcases Handle_classify a lib req with
    ⟨err, -, hrun⟩ | ⟨pod, -, -, hrun⟩ | ⟨pod, msg, -, -, -, hrun⟩ |
    ⟨pod, err, -, -, -, -, -, hrun⟩ | ⟨pod, err, -, -, -, -, -, hrun⟩ |
    ⟨pod, cm, sa, p, hdec, hns, hw, hget, -, -, hor, hrun⟩
  · exact ⟨_, hrun, fun _ => ⟨rfl, rfl⟩, hfix _, fun h => absurd rfl h,
      fun p1 h => Option.noConfusion h⟩
  · exact ⟨_, hrun, fun _ => ⟨rfl, rfl⟩, hfix _, fun h => absurd rfl h,
      fun p1 h => Option.noConfusion h⟩
  · exact ⟨_, hrun, fun _ => ⟨rfl, rfl⟩, hfix _, fun h => absurd rfl h,
      fun p1 h => Option.noConfusion h⟩
  · exact ⟨_, hrun, fun _ => ⟨rfl, rfl⟩, hfix _, fun h => absurd rfl h,
      fun p1 h => Option.noConfusion h⟩
  · exact ⟨_, hrun, fun _ => ⟨rfl, rfl⟩, hfix _, fun h => absurd rfl h,
      fun p1 h => Option.noConfusion h⟩
  · have hor2 : p = pod ∨ ∃ v, p = withRunAsUser pod v ∧
        p.Spec.SecurityContext = some { RunAsUser := some v } := by
      rcases hor with h | ⟨v, h⟩
      · exact Or.inl h
      · exact Or.inr ⟨v, h, by rw [h]; rfl⟩
    refine ⟨_, hrun, PatchResponseFromRaw_not_allowed lib _ _, hfix _,
      fun _ => ⟨pod, p, hdec, rfl, rfl, hor2⟩, fun p1 h => ?_⟩
    have hp1 : p = p1 := Option.some.inj h
    subst hp1
    exact ⟨pod, cm, hdec, hns, hw, hget, hor2⟩

/-- C11 as stated fails: on the sample cluster the request of `alice` for a Pod
in `kube-system` is answered without any read of the mapping. -/
theorem one_read_every_request_counterexample :
    ∃ out, Handle (sampleAnnotator (.ok (samplePod "kube-system")) (.ok sampleConfigMap))
        sampleLibs (sampleRequest "alice") = some out ∧
      out.reads = [] ∧ out.reads.length ≠ 1 :=
  ⟨{ response := admission.Allowed "Not the target namespace" }, by decide, rfl, by decide⟩

/-- C11, amended: every run produces exactly one response, writes nothing
through the client, and reads the mapping at most once, always under the key
`uid-configmap` in `home`: exactly once when the Pod decodes, is in `home` and
the caller name passes both tests, and not at all otherwise. -/
theorem one_response_at_most_one_read (a : podAnnotator) (lib : Libs) (req : Request) :
    ∃ out, Handle a lib req = some out ∧
      (∀ out2, Handle a lib req = some out2 → out2 = out) ∧
      out.writes = [] ∧ out.reads.length ≤ 1 ∧ (∀ k ∈ out.reads, k = configMapKey) ∧
      (out.reads = [configMapKey] ↔
        ∃ pod, a.decoder.Decode req = .ok pod ∧ pod.Namespace = "home" ∧
          wellFormed req.UserInfo.Username) ∧
      (out.reads = [] ↔
        ¬ ∃ pod, a.decoder.Decode req = .ok pod ∧ pod.Namespace = "home" ∧
          wellFormed req.UserInfo.Username) := by
  have huniq : ∀ out, Handle a lib req = some out →
      ∀ out2, Handle a lib req = some out2 → out2 = out := by
    intro out h out2 h2
    rw [h] at h2
    exact (Option.some.inj h2).symm
  rcases Handle_classify a lib req with
    ⟨err, hdec, hrun⟩ | ⟨pod, hdec, hns, hrun⟩ | ⟨pod, msg, hdec, hns, hw, hrun⟩ |
    ⟨pod, err, hdec, hns, hw, -, -, hrun⟩ | ⟨pod, err, hdec, hns, hw, -, -, hrun⟩ |
    ⟨pod, cm, sa, pod1, hdec, hns, hw, -, -, -, -, hrun⟩
  · have hno : ¬ ∃ pod, a.decoder.Decode req = .ok pod ∧ pod.Namespace = "home" ∧
        wellFormed req.UserInfo.Username := by
      rintro ⟨pod, h, -, -⟩
      rw [hdec] at h
      cases h
    exact ⟨_, hrun, huniq _ hrun, rfl, Nat.zero_le _, fun k hk => absurd hk (List.not_mem_nil k),
      ⟨fun h => absurd h.symm (List.cons_ne_nil configMapKey []), fun h => absurd h hno⟩, ⟨fun _ => hno, fun _ => rfl⟩⟩
  · have hno : ¬ ∃ pod, a.decoder.Decode req = .ok pod ∧ pod.Namespace = "home" ∧
        wellFormed req.UserInfo.Username := by
      rintro ⟨pod2, h, hns2, -⟩
      rw [hdec] at h
      cases h
      exact hns hns2
    exact ⟨_, hrun, huniq _ hrun, rfl, Nat.zero_le _, fun k hk => absurd hk (List.not_mem_nil k),
      ⟨fun h => absurd h.symm (List.cons_ne_nil configMapKey []), fun h => absurd h hno⟩, ⟨fun _ => hno, fun _ => rfl⟩⟩
  · have hno : ¬ ∃ pod, a.decoder.Decode req = .ok pod ∧ pod.Namespace = "home" ∧
        wellFormed req.UserInfo.Username := by
      rintro ⟨pod2, -, -, hw2⟩
      exact hw hw2
    exact ⟨_, hrun, huniq _ hrun, rfl, Nat.zero_le _, fun k hk => absurd hk (List.not_mem_nil k),
      ⟨fun h => absurd h.symm (List.cons_ne_nil configMapKey []), fun h => absurd h hno⟩, ⟨fun _ => hno, fun _ => rfl⟩⟩
  · exact ⟨_, hrun, huniq _ hrun, rfl, Nat.le_refl _, fun k hk => List.mem_singleton.mp hk,
      ⟨fun _ => ⟨pod, hdec, hns, hw⟩, fun _ => rfl⟩,
      ⟨fun h => absurd h (List.cons_ne_nil configMapKey []), fun h => absurd ⟨pod, hdec, hns, hw⟩ h⟩⟩
  · exact ⟨_, hrun, huniq _ hrun, rfl, Nat.le_refl _, fun k hk => List.mem_singleton.mp hk,
      ⟨fun _ => ⟨pod, hdec, hns, hw⟩, fun _ => rfl⟩,
      ⟨fun h => absurd h (List.cons_ne_nil configMapKey []), fun h => absurd ⟨pod, hdec, hns, hw⟩ h⟩⟩
  · exact ⟨_, hrun, huniq _ hrun, rfl, Nat.le_refl _, fun k hk => List.mem_singleton.mp hk,
      ⟨fun _ => ⟨pod, hdec, hns, hw⟩, fun _ => rfl⟩,
      ⟨fun h => absurd h (List.cons_ne_nil configMapKey []), fun h => absurd ⟨pod, hdec, hns, hw⟩ h⟩⟩

/-- C12: frame of the mutation.  When a run reaches the patch step and
re-encodes `pod1`, the request decoded to a Pod that agrees with `pod1` on the
type metadata, the object metadata (the namespace with it), the status and
every field of the specification other than the security context, whether or
not the account name was found in the mapping: putting the submitted security
context back into `pod1` gives the decoded Pod. -/
theorem mutation_frame (a : podAnnotator) (lib : Libs) (req : Request) (out : Outcome)
    (pod1 : Pod) (h : Handle a lib req = some out) (hm : out.marshaled = some pod1) :
    ∃ pod, a.decoder.Decode req = .ok pod ∧
      pod1.TypeMeta = pod.TypeMeta ∧ pod1.ObjectMeta = pod.ObjectMeta ∧
      pod1.Namespace = pod.Namespace ∧ pod1.Status = pod.Status ∧
      pod1.Spec.Containers = pod.Spec.Containers ∧
      pod1.Spec.ServiceAccountName = pod.Spec.ServiceAccountName ∧
      pod1.Spec.other = pod.Spec.other ∧
      { pod1 with Spec := { pod1.Spec with SecurityContext := pod.Spec.SecurityContext } } =
        pod := by
  rcases Handle_classify a lib req with
    ⟨err, -, hrun⟩ | ⟨pod, -, -, hrun⟩ | ⟨pod, msg, -, -, -, hrun⟩ |
    ⟨pod, err, -, -, -, -, -, hrun⟩ | ⟨pod, err, -, -, -, -, -, hrun⟩ |
    ⟨pod, cm, sa, p, hdec, -, -, -, -, -, hor, hrun⟩
  · rw [hrun] at h; cases h; cases hm
  · rw [hrun] at h; cases h; cases hm
  · rw [hrun] at h; cases h; cases hm
  · rw [hrun] at h; cases h; cases hm
  · rw [hrun] at h; cases h; cases hm
  · rw [hrun] at h
    cases h
    have hpp : p = pod1 := Option.some.inj hm
    subst hpp
    rcases hor with rfl | ⟨v, rfl⟩
    · exact ⟨p, hdec, rfl, rfl, rfl, rfl, rfl, rfl, rfl, rfl⟩
    · exact ⟨pod, hdec, rfl, rfl, rfl, rfl, rfl, rfl, rfl, rfl⟩

/-- C12, run on the sample cluster: the Pod patched for `backup-agent` differs
from the submitted one in the security context only. -/
theorem mutation_frame_witness :
    ∃ pod, (sampleAnnotator (.ok (samplePod "home")) (.ok sampleConfigMap)).decoder.Decode
        (sampleRequest "system:serviceaccount:home:backup-agent") = .ok pod ∧
      (withRunAsUser (samplePod "home") 1000).ObjectMeta = pod.ObjectMeta ∧
      (withRunAsUser (samplePod "home") 1000).Spec.ServiceAccountName =
        pod.Spec.ServiceAccountName ∧
      (withRunAsUser (samplePod "home") 1000).Spec.SecurityContext ≠ pod.Spec.SecurityContext := by
  have h1 : Handle (sampleAnnotator (.ok (samplePod "home")) (.ok sampleConfigMap)) sampleLibs
      (sampleRequest "system:serviceaccount:home:backup-agent") =
      some { response := { Patches := [{ Operation := "replace", Path := "/spec", Value := "" }]
                           Allowed := true
                           PatchType := some PatchType.JSONPatch }
             reads := [configMapKey]
             marshaled := some (withRunAsUser (samplePod "home") 1000) } := by decide
  obtain ⟨pod, hdec, -, hmeta, -, -, -, hsa, -, -⟩ :=
    mutation_frame (sampleAnnotator (.ok (samplePod "home")) (.ok sampleConfigMap)) sampleLibs
      (sampleRequest "system:serviceaccount:home:backup-agent") _
      (withRunAsUser (samplePod "home") 1000) h1 rfl
  refine ⟨pod, hdec, hmeta, hsa, ?_⟩
  have hp : pod = samplePod "home" := by
    have h2 : (Except.ok (samplePod "home") : Except GoError Pod) = Except.ok pod := hdec
    cases h2
    rfl
  rw [hp]
  decide

/-- C13: the service account's namespace does not matter.  Two requests for
the same object whose Pod is in `home`, from `system:serviceaccount:<ns1>:<name>`
and `system:serviceaccount:<ns2>:<name>` (no colon in any segment), get the same
response from the same annotator, whatever its client answers, and the runs
read and re-encode the same things. -/
theorem caller_namespace_irrelevant (a : podAnnotator) (lib : Libs) (req1 req2 : Request)
    (pod : Pod) (ns1 ns2 name : String)
    (hdec1 : a.decoder.Decode req1 = .ok pod) (hdec2 : a.decoder.Decode req2 = .ok pod)
    (hns : pod.Namespace = "home") (hobj : req1.Object = req2.Object)
    (hu1 : req1.UserInfo.Username = "system:serviceaccount:" ++ ns1 ++ ":" ++ name)
    (hu2 : req2.UserInfo.Username = "system:serviceaccount:" ++ ns2 ++ ":" ++ name)
    (hc1 : ':' ∉ ns1.data) (hc2 : ':' ∉ ns2.data) (hcname : ':' ∉ name.data) :
    ∃ out, Handle a lib req1 = some out ∧ Handle a lib req2 = some out := by
  obtain ⟨hw1, hsa1⟩ := serviceaccount_name ns1 name hc1 hcname
  obtain ⟨hw2, hsa2⟩ := serviceaccount_name ns2 name hc2 hcname
  rw [← hu1] at hw1 hsa1
  rw [← hu2] at hw2 hsa2
  have hr1 := Handle_wellFormed a lib req1 pod name hdec1 hns hw1 hsa1
  have hr2 := Handle_wellFormed a lib req2 pod name hdec2 hns hw2 hsa2
  rw [← hobj] at hr2
  rw [← hr1] at hr2
  obtain ⟨out, hout⟩ := Handle_total a lib req1
  exact ⟨out, hout, hr2.trans hout⟩

/-- C13, run on the sample cluster: `backup-agent` of namespace `kube-system`
is treated as `backup-agent` of namespace `home`. -/
theorem caller_namespace_irrelevant_witness :
    ∃ out, Handle (sampleAnnotator (.ok (samplePod "home")) (.ok sampleConfigMap)) sampleLibs
        (sampleRequest "system:serviceaccount:home:backup-agent") = some out ∧
      Handle (sampleAnnotator (.ok (samplePod "home")) (.ok sampleConfigMap)) sampleLibs
        (sampleRequest "system:serviceaccount:kube-system:backup-agent") = some out :=
  caller_namespace_irrelevant (sampleAnnotator (.ok (samplePod "home")) (.ok sampleConfigMap))
    sampleLibs (sampleRequest "system:serviceaccount:home:backup-agent")
    (sampleRequest "system:serviceaccount:kube-system:backup-agent") (samplePod "home")
    "home" "kube-system" "backup-agent" rfl rfl rfl rfl (by decide) (by decide)
    (by decide) (by decide) (by decide)

/-- C14: empty segments are accepted.  For a Pod in `home` and a mapping that
is fetched, the callers `system:serviceaccount::` and
`system:serviceaccount:home:` pass both tests of the name and are not denied;
the lookup is by the empty string, and a value found under it is parsed and
set as `RunAsUser`.  On every request whatsoever the run returns a response:
the index expression `saParts[3]` is never out of bounds. -/
theorem empty_segments_accepted (a : podAnnotator) (lib : Libs) (req : Request) (pod : Pod)
    (cm : ConfigMap) (hdec : a.decoder.Decode req = .ok pod) (hns : pod.Namespace = "home")
    (hu : req.UserInfo.Username = "system:serviceaccount::" ∨
      req.UserInfo.Username = "system:serviceaccount:home:")
    (hget : a.Client.Get configMapKey = .ok cm) :
    wellFormed req.UserInfo.Username ∧
    (strings.Split req.UserInfo.Username ':')[3]? = some "" ∧
    (∃ out, Handle a lib req = some out ∧
      (¬ ∃ msg, out.response = admission.Denied msg) ∧
      out.marshaled = some (match cm.Data "" with
                            | some uid => withRunAsUser pod (strconv.ParseInt uid).1
                            | none => pod) ∧
      (∀ uid, cm.Data "" = some uid →
        out.marshaled = some (withRunAsUser pod (strconv.ParseInt uid).1)) ∧
      out.response = admission.PatchResponseFromRaw lib req.Object.Raw
        (lib.Marshal (match cm.Data "" with
                      | some uid => withRunAsUser pod (strconv.ParseInt uid).1
                      | none => pod)).1) ∧
    (∀ (a2 : podAnnotator) (lib2 : Libs) (req2 : Request), ∃ out, Handle a2 lib2 req2 = some out) ∧
    (∀ u : String, (strings.Split u ':').length = 4 →
      ∃ sa, (strings.Split u ':')[3]? = some sa) := by
  have hshape : ∃ ns : String, ':' ∉ ns.data ∧
      req.UserInfo.Username = "system:serviceaccount:" ++ ns ++ ":" ++ "" := by
    rcases hu with h | h
    · exact ⟨"", by decide, h.trans (by decide)⟩
    · exact ⟨"home", by decide, h.trans (by decide)⟩
  obtain ⟨ns, hcns, hu2⟩ := hshape
  obtain ⟨hw, hsa⟩ := serviceaccount_name ns "" hcns (by decide)
  rw [← hu2] at hw hsa
  have hrun := Handle_serviceaccount a lib req pod ns "" cm hdec hns hu2 hcns (by decide) hget
  refine ⟨hw, hsa, ⟨_, hrun, ?_, rfl, ?_, rfl⟩, Handle_total, fourth_piece⟩
  · rintro ⟨msg, h⟩
    exact PatchResponseFromRaw_ne_Denied _ _ _ _ h
  · intro uid huid
    simp only [huid]

/-- C14, run on the sample cluster: with a mapping whose only key is the empty
string, mapped to `"0"`, the caller `system:serviceaccount::` has its Pod set
to run as user 0. -/
theorem empty_segments_accepted_witness :
    emptyKeyConfigMap.Data "" = some "0" ∧
    ∃ out, Handle (sampleAnnotator (.ok (samplePod "home")) (.ok emptyKeyConfigMap)) sampleLibs
        (sampleRequest "system:serviceaccount::") = some out ∧
      (¬ ∃ msg, out.response = admission.Denied msg) ∧
      out.marshaled = some (withRunAsUser (samplePod "home") 0) := by
  obtain ⟨-, -, ⟨out, hout, hnd, -, hm, -⟩, -, -⟩ :=
    empty_segments_accepted (sampleAnnotator (.ok (samplePod "home")) (.ok emptyKeyConfigMap))
      sampleLibs (sampleRequest "system:serviceaccount::") (samplePod "home") emptyKeyConfigMap
      rfl rfl (Or.inl rfl) rfl
  refine ⟨by decide, out, hout, hnd, ?_⟩
  have h0 : (strconv.ParseInt "0").1 = 0 := by decide
  rw [← h0]
  exact hm "0" (by decide)

end NFSOperator
